import Mathlib

/-!
# Mode-set engine of the local chunk store

A shallow embedding of `DB.set` (swarm/storage/localstore/mode_set.go) and
theorems about the index transitions it performs.

The store is modelled index by index.  The three retrieval indexes are keyed
by address and map to their stored value; the Pull, Push and GC indexes have
keys only and are finite sets of keys.  A batch is the list of operations
accumulated by `PutInBatch` / `DeleteInBatch`, applied in order by
`WriteBatch`.  Reads (`Get`) look at the committed store, never at the batch
under construction.

Everything the function obtains from its surroundings in one call is collected
in `Env`: the successive readings of the clock `now()`, the outcome of
`lockAddr`, storage failures of the reads, and the outcome of `WriteBatch`.

Timestamps and the GC size counter are `int64` in the source.  Timestamps are
only copied and compared, and the counter moves by one per GC entry, so they
are modelled as unbounded integers: the counter cannot wrap before the store
holds 2^63 entries.
-/

namespace Localstore

/-- A chunk address, `storage.Address` (a byte slice). -/
abbrev Address := List Nat

/-- The record shared by all indexes, `shed.Item`. -/
structure Item where
  Address : Address
  Data : List Nat
  AccessTimestamp : Int
  StoreTimestamp : Int
deriving DecidableEq, Repr

/-- Errors returned by `set`. `failure` stands for any error of the storage
engine or of the lock registry other than the two named ones. -/
inductive Error where
  | ErrNotFound
  | ErrInvalidMode
  | failure (code : Nat)
deriving DecidableEq, Repr

/-- The setter mode `ModeSet`, an `int` in the source. -/
abbrev ModeSet := Int

def ModeSetAccess : ModeSet := 0
def ModeSetSync : ModeSet := 1
def ModeSetRemove : ModeSet := 2

/-- The indexes touched by `set`. -/
inductive Index where
  | retrievalCompositeIndex
  | retrievalDataIndex
  | retrievalAccessIndex
  | pullIndex
  | pushIndex
  | gcIndex
deriving DecidableEq, Repr

/-- The database: the layout flag, the content of each index and the GC size
counter `gcSize`.

Modelled from the spec: the index declarations are not part of the source
shown.  Following the data model of the spec, the composite index maps an
address to (storeTimestamp, accessTimestamp, data), the data index to
(storeTimestamp, data), the access index to accessTimestamp; Pull and Push
keys are (storeTimestamp, address) and GC keys are (accessTimestamp, address). -/
structure DB where
  useRetrievalCompositeIndex : Bool
  retrievalCompositeIndex : Address → Option (Int × Int × List Nat)
  retrievalDataIndex : Address → Option (Int × List Nat)
  retrievalAccessIndex : Address → Option Int
  pullIndex : Finset (Int × Address)
  pushIndex : Finset (Int × Address)
  gcIndex : Finset (Int × Address)
  gcSize : Int

/-- What one call of `set` obtains from outside the store. -/
structure Env where
  /-- Successive readings of `now()` during the call: `now 0` is the first. -/
  now : Nat → Int
  /-- Error returned by `lockAddr`, if any. -/
  lockAddr : Option Nat
  /-- Storage failure (other than not-found) of a `Get` on the given index. -/
  getFailure : Index → Option Nat
  /-- Error returned by `WriteBatch`, if any. -/
  writeBatch : Option Nat

/-- One entry of a `leveldb.Batch`. The key (and value) are encoded from the
item at the moment the entry is added. -/
inductive Op where
  | put (idx : Index) (item : Item)
  | delete (idx : Index) (item : Item)
deriving DecidableEq, Repr

abbrev Batch := List Op

/-- Modelled from the spec: `addressToItem` is not part of the source shown;
it yields the item carrying only the address. -/
def addressToItem (addr : Address) : Item :=
  { Address := addr, Data := [], AccessTimestamp := 0, StoreTimestamp := 0 }

/-- The stored record found in an index under the key of `item`, if any. -/
def stored (db : DB) (idx : Index) (item : Item) : Option Item :=
  match idx with
  | .retrievalCompositeIndex =>
    match db.retrievalCompositeIndex item.Address with
    | some (s, a, d) => some { item with StoreTimestamp := s, AccessTimestamp := a, Data := d }
    | none => none
  | .retrievalDataIndex =>
    match db.retrievalDataIndex item.Address with
    | some (s, d) => some { item with StoreTimestamp := s, Data := d }
    | none => none
  | .retrievalAccessIndex =>
    match db.retrievalAccessIndex item.Address with
    | some a => some { item with AccessTimestamp := a }
    | none => none
  | .pullIndex =>
    if (item.StoreTimestamp, item.Address) ∈ db.pullIndex then some item else none
  | .pushIndex =>
    if (item.StoreTimestamp, item.Address) ∈ db.pushIndex then some item else none
  | .gcIndex =>
    if (item.AccessTimestamp, item.Address) ∈ db.gcIndex then some item else none

/-- The read `idx.Get(item)`: a storage failure, `ErrNotFound` when the key is
absent, the stored item otherwise. -/
def Get (env : Env) (db : DB) (idx : Index) (item : Item) : Except Error Item :=
  match env.getFailure idx with
  | some c => .error (.failure c)
  | none =>
    match stored db idx item with
    | some i => .ok i
    | none => .error .ErrNotFound

/-- `idx.PutInBatch(batch, item)`. -/
def PutInBatch (batch : Batch) (idx : Index) (item : Item) : Batch :=
  batch ++ [Op.put idx item]

/-- `idx.DeleteInBatch(batch, item)`. -/
def DeleteInBatch (batch : Batch) (idx : Index) (item : Item) : Batch :=
  batch ++ [Op.delete idx item]

/-- Modelled from the spec: `incGCSize` is not part of the source shown.  It is
called with the delta alone, before the batch is written, and adjusts the
in-memory counter at once. -/
def incGCSize (db : DB) (count : Int) : DB :=
  { db with gcSize := db.gcSize + count }

/-- Effect of one batch entry on the store. -/
def applyOp (db : DB) : Op → DB
  | .put .retrievalCompositeIndex it =>
    let v := (it.StoreTimestamp, it.AccessTimestamp, it.Data)
    { db with retrievalCompositeIndex := Function.update db.retrievalCompositeIndex it.Address (some v) }
  | .put .retrievalDataIndex it =>
    let v := (it.StoreTimestamp, it.Data)
    { db with retrievalDataIndex := Function.update db.retrievalDataIndex it.Address (some v) }
  | .put .retrievalAccessIndex it =>
    let v := it.AccessTimestamp
    { db with retrievalAccessIndex := Function.update db.retrievalAccessIndex it.Address (some v) }
  | .put .pullIndex it => { db with pullIndex := insert (it.StoreTimestamp, it.Address) db.pullIndex }
  | .put .pushIndex it => { db with pushIndex := insert (it.StoreTimestamp, it.Address) db.pushIndex }
  | .put .gcIndex it => { db with gcIndex := insert (it.AccessTimestamp, it.Address) db.gcIndex }
  | .delete .retrievalCompositeIndex it =>
    { db with retrievalCompositeIndex := Function.update db.retrievalCompositeIndex it.Address none }
  | .delete .retrievalDataIndex it =>
    { db with retrievalDataIndex := Function.update db.retrievalDataIndex it.Address none }
  | .delete .retrievalAccessIndex it =>
    { db with retrievalAccessIndex := Function.update db.retrievalAccessIndex it.Address none }
  | .delete .pullIndex it => { db with pullIndex := db.pullIndex.erase (it.StoreTimestamp, it.Address) }
  | .delete .pushIndex it => { db with pushIndex := db.pushIndex.erase (it.StoreTimestamp, it.Address) }
  | .delete .gcIndex it => { db with gcIndex := db.gcIndex.erase (it.AccessTimestamp, it.Address) }

/-- The store after all entries of a batch have been applied, in order. -/
def applyBatch (db : DB) (batch : Batch) : DB :=
  batch.foldl applyOp db

/-- `db.shed.WriteBatch(batch)`: all or nothing. -/
def WriteBatch (env : Env) (db : DB) (batch : Batch) : Option Error × DB :=
  match env.writeBatch with
  | some c => (some (.failure c), db)
  | none => (none, applyBatch db batch)

/-- How the `switch mode` statement of `set` ends: with a `return` of its own,
or by falling through to `return db.shed.WriteBatch(batch)`. -/
inductive Flow where
  | ret (err : Option Error)
  | write (batch : Batch)
deriving DecidableEq, Repr

/-- Lines 123-125: the common tail of `case ModeSetAccess`. -/
def accessTail (db : DB) (batch : Batch) (item : Item) : DB × Flow :=
  let batch := PutInBatch batch .pullIndex item
  let batch := PutInBatch batch .gcIndex item
  let db := incGCSize db 1
  (db, .write batch)

/-- Lines 109-125: the second read of the split layout in `case ModeSetAccess`
and what follows it. `n` is the number of clock readings taken so far. -/
def setAccessSplit (env : Env) (db : DB) (batch : Batch) (item : Item) (n : Nat) : DB × Flow :=
  match Get env db .retrievalAccessIndex item with
  | .ok i =>
    let item := { item with AccessTimestamp := i.AccessTimestamp }
    let batch := DeleteInBatch batch .gcIndex item
    let db := incGCSize db (-1)
    let item := { item with AccessTimestamp := env.now n }
    let batch := PutInBatch batch .retrievalAccessIndex item
    accessTail db batch item
  | .error .ErrNotFound =>
    let item := { item with AccessTimestamp := env.now n }
    let batch := PutInBatch batch .retrievalAccessIndex item
    accessTail db batch item
  | .error err => (db, .ret (some err))

/-- Lines 76-125: `case ModeSetAccess`. -/
def setAccess (env : Env) (db : DB) (batch : Batch) (item : Item) : DB × Flow :=
  if db.useRetrievalCompositeIndex then
    match Get env db .retrievalCompositeIndex item with
    | .ok i =>
      let item := { item with AccessTimestamp := i.AccessTimestamp }
      let item := { item with StoreTimestamp := i.StoreTimestamp }
      let batch := DeleteInBatch batch .gcIndex item
      let db := incGCSize db (-1)
      accessTail db batch item
    | .error .ErrNotFound =>
      let batch := DeleteInBatch batch .pullIndex item
      let item := { item with AccessTimestamp := env.now 0 }
      let item := { item with StoreTimestamp := env.now 1 }
      accessTail db batch item
    | .error err => (db, .ret (some err))
  else
    match Get env db .retrievalDataIndex item with
    | .ok i =>
      let item := { item with StoreTimestamp := i.StoreTimestamp }
      setAccessSplit env db batch item 0
    | .error .ErrNotFound =>
      let batch := DeleteInBatch batch .pushIndex item
      let item := { item with StoreTimestamp := env.now 0 }
      setAccessSplit env db batch item 1
    | .error err => (db, .ret (some err))

/-- Lines 189-191: the common tail of `case ModeSetSync`. -/
def syncTail (db : DB) (batch : Batch) (item : Item) : DB × Flow :=
  let batch := DeleteInBatch batch .pushIndex item
  let batch := PutInBatch batch .gcIndex item
  let db := incGCSize db 1
  (db, .write batch)

/-- Lines 127-191: `case ModeSetSync`. -/
def setSync (env : Env) (db : DB) (batch : Batch) (item : Item) : DB × Flow :=
  if db.useRetrievalCompositeIndex then
    match Get env db .retrievalCompositeIndex item with
    | .error .ErrNotFound =>
      -- the delete is added to the batch, and the function returns nil
      -- without writing the batch
      let _batch := DeleteInBatch batch .pushIndex item
      (db, .ret none)
    | .error err => (db, .ret (some err))
    | .ok i =>
      let item := { item with AccessTimestamp := i.AccessTimestamp }
      let item := { item with StoreTimestamp := i.StoreTimestamp }
      let item := { item with Data := i.Data }
      if item.AccessTimestamp = 0 then
        let item := { item with AccessTimestamp := env.now 0 }
        let batch := PutInBatch batch .retrievalCompositeIndex item
        syncTail db batch item
      else
        let batch := DeleteInBatch batch .gcIndex item
        let db := incGCSize db (-1)
        syncTail db batch item
  else
    match Get env db .retrievalDataIndex item with
    | .error .ErrNotFound =>
      let _batch := DeleteInBatch batch .pushIndex item
      (db, .ret none)
    | .error err => (db, .ret (some err))
    | .ok i =>
      let item := { item with StoreTimestamp := i.StoreTimestamp }
      match Get env db .retrievalAccessIndex item with
      | .ok i =>
        let item := { item with AccessTimestamp := i.AccessTimestamp }
        let batch := DeleteInBatch batch .gcIndex item
        let db := incGCSize db (-1)
        let item := { item with AccessTimestamp := env.now 0 }
        let batch := PutInBatch batch .retrievalAccessIndex item
        syncTail db batch item
      | .error .ErrNotFound =>
        let item := { item with AccessTimestamp := env.now 0 }
        let batch := PutInBatch batch .retrievalAccessIndex item
        syncTail db batch item
      | .error err => (db, .ret (some err))

/-- Lines 221-235: the deletes of `case ModeSetRemove` and the probe of the GC
index, which reads the committed store. -/
def removeTail (env : Env) (db : DB) (batch : Batch) (item : Item) : DB × Flow :=
  let batch :=
    if db.useRetrievalCompositeIndex then
      DeleteInBatch batch .retrievalCompositeIndex item
    else
      let batch := DeleteInBatch batch .retrievalDataIndex item
      DeleteInBatch batch .retrievalAccessIndex item
  let batch := DeleteInBatch batch .pullIndex item
  let batch := DeleteInBatch batch .gcIndex item
  match Get env db .gcIndex item with
  | .ok _ => (incGCSize db (-1), .write batch)
  | .error _ => (db, .write batch)

/-- Lines 215-235: the read of the data index in the split layout of
`case ModeSetRemove` and what follows it. -/
def setRemoveSplit (env : Env) (db : DB) (batch : Batch) (item : Item) : DB × Flow :=
  match Get env db .retrievalDataIndex item with
  | .error err => (db, .ret (some err))
  | .ok i =>
    let item := { item with StoreTimestamp := i.StoreTimestamp }
    removeTail env db batch item

/-- Lines 193-235: `case ModeSetRemove`. -/
def setRemove (env : Env) (db : DB) (batch : Batch) (item : Item) : DB × Flow :=
  if db.useRetrievalCompositeIndex then
    match Get env db .retrievalCompositeIndex item with
    | .error err => (db, .ret (some err))
    | .ok i =>
      let item := { item with StoreTimestamp := i.StoreTimestamp }
      let item := { item with AccessTimestamp := i.AccessTimestamp }
      removeTail env db batch item
  else
    match Get env db .retrievalAccessIndex item with
    | .ok i =>
      let item := { item with AccessTimestamp := i.AccessTimestamp }
      setRemoveSplit env db batch item
    | .error .ErrNotFound => setRemoveSplit env db batch item
    | .error err => (db, .ret (some err))

/-- Lines 71-239: builds the batch and adjusts the counter; everything of `set`
between taking the lock and `return db.shed.WriteBatch(batch)`. -/
def setFlow (env : Env) (db : DB) (mode : ModeSet) (addr : Address) : DB × Flow :=
  let batch : Batch := []
  let item := addressToItem addr
  if mode = ModeSetAccess then setAccess env db batch item
  else if mode = ModeSetSync then setSync env db batch item
  else if mode = ModeSetRemove then setRemove env db batch item
  else (db, .ret (some .ErrInvalidMode))

/-- The method `DB.set`: the error returned (`none` is nil) and the database
afterwards. -/
def set (env : Env) (db : DB) (mode : ModeSet) (addr : Address) : Option Error × DB :=
  match env.lockAddr with
  | some c => (some (.failure c), db)
  | none =>
    match setFlow env db mode addr with
    | (db, .ret err) => (err, db)
    | (db, .write batch) => WriteBatch env db batch


/-- Whether the address has a canonical record: in the composite index in the
composite layout, in the data index in the split layout. -/
def hasCanonical (db : DB) (addr : Address) : Bool :=
  if db.useRetrievalCompositeIndex then (db.retrievalCompositeIndex addr).isSome
  else (db.retrievalDataIndex addr).isSome

/-- The store timestamp recorded for the address in the canonical index. -/
def storeTimestampOf (db : DB) (addr : Address) : Option Int :=
  if db.useRetrievalCompositeIndex then (db.retrievalCompositeIndex addr).map (fun v => v.1)
  else (db.retrievalDataIndex addr).map (fun v => v.1)

/-- The access timestamp recorded for the address: in the composite record in
the composite layout, in the access index in the split layout. -/
def accessTimestampOf (db : DB) (addr : Address) : Option Int :=
  if db.useRetrievalCompositeIndex then (db.retrievalCompositeIndex addr).map (fun v => v.2.1)
  else db.retrievalAccessIndex addr

/-- The two databases hold the same entries in every index (the counter may
differ). -/
def sameIndexes (a b : DB) : Prop :=
  a.useRetrievalCompositeIndex = b.useRetrievalCompositeIndex ∧
  a.retrievalCompositeIndex = b.retrievalCompositeIndex ∧
  a.retrievalDataIndex = b.retrievalDataIndex ∧
  a.retrievalAccessIndex = b.retrievalAccessIndex ∧
  a.pullIndex = b.pullIndex ∧ a.pushIndex = b.pushIndex ∧ a.gcIndex = b.gcIndex

/-- The entries of a key-only index that belong to the address. -/
def entriesOf (idx : Finset (Int × Address)) (addr : Address) : Finset (Int × Address) :=
  idx.filter (fun k => k.2 = addr)

/-- The index holding the canonical record in the layout of the database. -/
def canonicalIndex (db : DB) : Index :=
  if db.useRetrievalCompositeIndex then .retrievalCompositeIndex else .retrievalDataIndex

/-- The address was never stored: no index holds an entry for it. -/
def neverStored (db : DB) (addr : Address) : Prop :=
  db.retrievalCompositeIndex addr = none ∧ db.retrievalDataIndex addr = none ∧
  db.retrievalAccessIndex addr = none ∧ entriesOf db.pullIndex addr = ∅ ∧
  entriesOf db.pushIndex addr = ∅ ∧ entriesOf db.gcIndex addr = ∅

/-! ### Example databases and environments -/

/-- The empty database of the given layout. -/
def emptyDB (composite : Bool) : DB :=
  { useRetrievalCompositeIndex := composite
    retrievalCompositeIndex := fun _ => none
    retrievalDataIndex := fun _ => none
    retrievalAccessIndex := fun _ => none
    pullIndex := ∅
    pushIndex := ∅
    gcIndex := ∅
    gcSize := 0 }

/-- An environment without failures whose clock reads `t` throughout. -/
def calm (t : Int) : Env :=
  { now := fun _ => t
    lockAddr := none
    getFailure := fun _ => none
    writeBatch := none }

/-- A database whose only chunk is `[1]`, stored at time 100 with payload `[7]`,
never accessed, present in the Pull and Push indexes; the GC index is empty and
the counter is 0. -/
def freshDB (composite : Bool) : DB :=
  if composite then
    { emptyDB true with
      retrievalCompositeIndex := Function.update (fun _ => none) [1] (some (100, 0, [7]))
      pullIndex := {(100, [1])}
      pushIndex := {(100, [1])} }
  else
    { emptyDB false with
      retrievalDataIndex := Function.update (fun _ => none) [1] (some (100, [7]))
      pullIndex := {(100, [1])}
      pushIndex := {(100, [1])} }

/-- The split-layout database reached from the empty one with a Push entry for
`[1]` by an Access of the never stored address `[1]` at time 200: the address
has an access record, a Pull entry and a GC entry, but no data record. -/
def accessedUnknownDB : DB :=
  (set (calm 200) { emptyDB false with pushIndex := {(100, [1])} } ModeSetAccess [1]).2

/-- The lifecycle scenario, first step: Access of chunk `[1]` of `freshDB` at
time 200. -/
def afterAccess (composite : Bool) : Option Error × DB :=
  set (calm 200) (freshDB composite) ModeSetAccess [1]

/-- The lifecycle scenario, second step: Sync of chunk `[1]` at time 300. -/
def afterSync (composite : Bool) : Option Error × DB :=
  set (calm 300) (afterAccess composite).2 ModeSetSync [1]

/-- The lifecycle scenario, third step: Remove of chunk `[1]` at time 400. -/
def afterRemove (composite : Bool) : Option Error × DB :=
  set (calm 400) (afterSync composite).2 ModeSetRemove [1]

/-- A composite-layout database whose only chunk `[1]`, stored at time 100, was
last accessed at time 7: its GC entry is `(7, [1])` and the counter is 1. -/
def accessedDB : DB :=
  { emptyDB true with
    retrievalCompositeIndex := Function.update (fun _ => none) [1] (some (100, 7, [7]))
    pullIndex := {(100, [1])}
    gcIndex := {(7, [1])}
    gcSize := 1 }

/-- The counter invariant: the GC size counter equals the number of GC entries. -/
def counterInv (db : DB) : Prop :=
  db.gcSize = db.gcIndex.card

/-- The coupling of the split layout: the GC index holds `(a, addr)` exactly
when the access index records the timestamp `a` for `addr`. -/
def coupled (db : DB) : Prop :=
  ∀ addr a, (a, addr) ∈ db.gcIndex ↔ db.retrievalAccessIndex addr = some a

/-- One call of `set` with what it obtains from outside. -/
structure Call where
  env : Env
  mode : ModeSet
  addr : Address

/-- The database after a sequence of calls of `set` that all return nil; `none`
as soon as one of them returns an error. -/
def setAll (db : DB) : List Call → Option DB
  | [] => some db
  | c :: cs =>
    match set c.env db c.mode c.addr with
    | (none, db1) => setAll db1 cs
    | (some _, _) => none

/-- A database of the split layout in which the address `[1]` has an access
record but no GC entry; the counter and the GC index agree (both are empty). -/
def uncoupledDB : DB :=
  { emptyDB false with
    retrievalAccessIndex := Function.update (fun _ => none) [1] (some 5) }

/-- The calls of the lifecycle scenario: Access at time 200, Sync at time 300
and Remove at time 400 of the chunk `[1]`. -/
def lifecycle : List Call :=
  [⟨calm 200, ModeSetAccess, [1]⟩, ⟨calm 300, ModeSetSync, [1]⟩, ⟨calm 400, ModeSetRemove, [1]⟩]

/-- The item a batch entry was encoded from. -/
def Op.item : Op → Item
  | .put _ it => it
  | .delete _ it => it

/-- The two databases hold the same entries for the address in every index. -/
def sameEntries (d1 d2 : DB) (b : Address) : Prop :=
  d1.retrievalCompositeIndex b = d2.retrievalCompositeIndex b ∧
  d1.retrievalDataIndex b = d2.retrievalDataIndex b ∧
  d1.retrievalAccessIndex b = d2.retrievalAccessIndex b ∧
  (∀ t, (t, b) ∈ d1.pullIndex ↔ (t, b) ∈ d2.pullIndex) ∧
  (∀ t, (t, b) ∈ d1.pushIndex ↔ (t, b) ∈ d2.pushIndex) ∧
  (∀ t, (t, b) ∈ d1.gcIndex ↔ (t, b) ∈ d2.gcIndex)

/-- The database after a sequence of calls of `set`, whatever they return. -/
def runAll (db : DB) (calls : List Call) : DB :=
  calls.foldl (fun d c => (set c.env d c.mode c.addr).2) db

end Localstore

/-! ## Retrieval requests of a peer (network/retrieval/peer.go) -/

namespace Retrieval

/-- The errors of `checkRequest`. -/
inductive Error where
  | ErrCannotFindRUID
  | ErrNoAddressMatch
deriving DecidableEq, Repr

/-- The type `Peer`, reduced to the map of ongoing retrievals
`retrievals map[uint]chunk.Address`. The mutex guarding it plays no part in a
sequential run. -/
structure Peer where
  retrievals : Nat → Option (List Nat)

/-- The method `addRetrieval`: `p.retrievals[ruid] = addr`. -/
def addRetrieval (p : Peer) (ruid : Nat) (addr : List Nat) : Peer :=
  { p with retrievals := Function.update p.retrievals ruid (some addr) }

/-- The method `checkRequest`; `none` is the nil error. The comparison of
`bytes.Equal` is byte-wise equality. -/
def checkRequest (p : Peer) (ruid : Nat) (addr : List Nat) : Option Error :=
  if ruid = 0 then none
  else
    match p.retrievals ruid with
    | none => some .ErrCannotFindRUID
    | some v => if ¬ (v = addr) then some .ErrNoAddressMatch else none

/-- A peer without ongoing retrievals, as `NewPeer` returns it. -/
def NewPeer : Peer :=
  { retrievals := fun _ => none }

end Retrieval

namespace Localstore

/-- The access timestamp the chunk counts as having: the access record in the
split layout; in the composite layout the timestamp of the composite record,
where 0 stands for never accessed. -/
def lastAccess (db : DB) (addr : Address) : Option Int :=
  if db.useRetrievalCompositeIndex then
    match db.retrievalCompositeIndex addr with
    | some (_, a, _) => if a = 0 then none else some a
    | none => none
  else db.retrievalAccessIndex addr

/-- The GC entries of the address are exactly the one keyed by its access
timestamp, none when it was never accessed. -/
def gcTracks (db : DB) (addr : Address) : Prop :=
  ∀ t, (t, addr) ∈ db.gcIndex ↔ lastAccess db addr = some t

/-- A split-layout database whose chunk `[1]`, stored at time 100 and pending
push, has the access record 5 but no GC entry; the counter and the GC index
agree (both are empty). -/
def uncoupledStoredDB : DB :=
  { emptyDB false with
    retrievalDataIndex := Function.update (fun _ => none) [1] (some (100, [7]))
    retrievalAccessIndex := Function.update (fun _ => none) [1] (some 5)
    pullIndex := {(100, [1])}
    pushIndex := {(100, [1])} }

/-- The database after the stored chunk `[1]` of `freshDB`, still pending push,
has been removed at time 400: its Push entry `(100, [1])` is left, and it has
no canonical record. -/
def removedDB (composite : Bool) : DB :=
  (set (calm 400) (freshDB composite) ModeSetRemove [1]).2

/-- The payload recorded for the address in the canonical index. -/
def payloadOf (db : DB) (addr : Address) : Option (List Nat) :=
  if db.useRetrievalCompositeIndex then (db.retrievalCompositeIndex addr).map (fun v => v.2.2)
  else (db.retrievalDataIndex addr).map (fun v => v.2)

/-- An environment whose clock reads 400 and in which every read of the GC
index fails with a storage error; nothing else fails. -/
def probeFails : Env :=
  { calm 400 with getFailure := fun idx => if idx = Index.gcIndex then some 1 else none }

/-! ### The result of a call, path by path -/

theorem set_access_composite (env : Env) (db : DB) (addr : Address)
    (hc : db.useRetrievalCompositeIndex = true) (hl : env.lockAddr = none)
    (hg : env.getFailure .retrievalCompositeIndex = none) (hw : env.writeBatch = none) :
    set env db ModeSetAccess addr = (none,
      match db.retrievalCompositeIndex addr with
      | some (s, a, _) =>
        { db with
          pullIndex := insert (s, addr) db.pullIndex
          gcIndex := insert (a, addr) (db.gcIndex.erase (a, addr))
          gcSize := db.gcSize + -1 + 1 }
      | none =>
        { db with
          pullIndex := insert (env.now 1, addr) (db.pullIndex.erase (0, addr))
          gcIndex := insert (env.now 0, addr) db.gcIndex
          gcSize := db.gcSize + 1 }) := by
  rcases h : db.retrievalCompositeIndex addr with _ | ⟨s, a, d⟩ <;>
    simp [set, setFlow, setAccess, accessTail, Get, stored, WriteBatch, applyBatch, applyOp,
      PutInBatch, DeleteInBatch, incGCSize, addressToItem, hc, hl, hg, hw, h]

theorem set_access_split (env : Env) (db : DB) (addr : Address)
    (hc : db.useRetrievalCompositeIndex = false) (hl : env.lockAddr = none)
    (hd : env.getFailure .retrievalDataIndex = none)
    (ha : env.getFailure .retrievalAccessIndex = none) (hw : env.writeBatch = none) :
    set env db ModeSetAccess addr = (none,
      match db.retrievalDataIndex addr, db.retrievalAccessIndex addr with
      | some (s, _), some a =>
        { db with
          retrievalAccessIndex := Function.update db.retrievalAccessIndex addr (some (env.now 0))
          pullIndex := insert (s, addr) db.pullIndex
          gcIndex := insert (env.now 0, addr) (db.gcIndex.erase (a, addr))
          gcSize := db.gcSize + -1 + 1 }
      | some (s, _), none =>
        { db with
          retrievalAccessIndex := Function.update db.retrievalAccessIndex addr (some (env.now 0))
          pullIndex := insert (s, addr) db.pullIndex
          gcIndex := insert (env.now 0, addr) db.gcIndex
          gcSize := db.gcSize + 1 }
      | none, some a =>
        { db with
          retrievalAccessIndex := Function.update db.retrievalAccessIndex addr (some (env.now 1))
          pullIndex := insert (env.now 0, addr) db.pullIndex
          pushIndex := db.pushIndex.erase (0, addr)
          gcIndex := insert (env.now 1, addr) (db.gcIndex.erase (a, addr))
          gcSize := db.gcSize + -1 + 1 }
      | none, none =>
        { db with
          retrievalAccessIndex := Function.update db.retrievalAccessIndex addr (some (env.now 1))
          pullIndex := insert (env.now 0, addr) db.pullIndex
          pushIndex := db.pushIndex.erase (0, addr)
          gcIndex := insert (env.now 1, addr) db.gcIndex
          gcSize := db.gcSize + 1 }) := by
  rcases h1 : db.retrievalDataIndex addr with _ | ⟨s, d⟩ <;>
  rcases h2 : db.retrievalAccessIndex addr with _ | a <;>
    simp [set, setFlow, setAccess, setAccessSplit, accessTail, Get, stored, WriteBatch, applyBatch,
      applyOp, PutInBatch, DeleteInBatch, incGCSize, addressToItem, hc, hl, hd, ha, hw, h1, h2]

theorem set_sync_composite_notFound (env : Env) (db : DB) (addr : Address)
    (hc : db.useRetrievalCompositeIndex = true) (hl : env.lockAddr = none)
    (hg : env.getFailure .retrievalCompositeIndex = none)
    (h : db.retrievalCompositeIndex addr = none) :
    set env db ModeSetSync addr = (none, db) := by
  simp [set, setFlow, setSync, Get, stored, addressToItem, hc, hl, hg, h, ModeSetSync,
    ModeSetAccess]

theorem set_sync_split_notFound (env : Env) (db : DB) (addr : Address)
    (hc : db.useRetrievalCompositeIndex = false) (hl : env.lockAddr = none)
    (hd : env.getFailure .retrievalDataIndex = none)
    (h : db.retrievalDataIndex addr = none) :
    set env db ModeSetSync addr = (none, db) := by
  simp [set, setFlow, setSync, Get, stored, addressToItem, hc, hl, hd, h, ModeSetSync,
    ModeSetAccess]

theorem set_sync_composite (env : Env) (db : DB) (addr : Address) (s a : Int) (d : List Nat)
    (hc : db.useRetrievalCompositeIndex = true) (hl : env.lockAddr = none)
    (hg : env.getFailure .retrievalCompositeIndex = none) (hw : env.writeBatch = none)
    (h : db.retrievalCompositeIndex addr = some (s, a, d)) :
    set env db ModeSetSync addr = (none,
      if a = 0 then
        { db with
          retrievalCompositeIndex :=
            Function.update db.retrievalCompositeIndex addr (some (s, env.now 0, d))
          pushIndex := db.pushIndex.erase (s, addr)
          gcIndex := insert (env.now 0, addr) db.gcIndex
          gcSize := db.gcSize + 1 }
      else
        { db with
          pushIndex := db.pushIndex.erase (s, addr)
          gcIndex := insert (a, addr) (db.gcIndex.erase (a, addr))
          gcSize := db.gcSize + -1 + 1 }) := by
  by_cases h0 : a = 0 <;>
    simp [set, setFlow, setSync, syncTail, Get, stored, WriteBatch, applyBatch, applyOp,
      PutInBatch, DeleteInBatch, incGCSize, addressToItem, hc, hl, hg, hw, h, h0, ModeSetSync,
      ModeSetAccess]

theorem set_sync_split (env : Env) (db : DB) (addr : Address) (s : Int) (d : List Nat)
    (hc : db.useRetrievalCompositeIndex = false) (hl : env.lockAddr = none)
    (hd : env.getFailure .retrievalDataIndex = none)
    (ha : env.getFailure .retrievalAccessIndex = none) (hw : env.writeBatch = none)
    (h : db.retrievalDataIndex addr = some (s, d)) :
    set env db ModeSetSync addr = (none,
      { db with
        retrievalAccessIndex := Function.update db.retrievalAccessIndex addr (some (env.now 0))
        pushIndex := db.pushIndex.erase (s, addr)
        gcIndex := insert (env.now 0, addr)
          (match db.retrievalAccessIndex addr with
            | some a => db.gcIndex.erase (a, addr)
            | none => db.gcIndex)
        gcSize :=
          match db.retrievalAccessIndex addr with
          | some _ => db.gcSize + -1 + 1
          | none => db.gcSize + 1 }) := by
  rcases h2 : db.retrievalAccessIndex addr with _ | a <;>
    simp [set, setFlow, setSync, syncTail, Get, stored, WriteBatch, applyBatch,
      applyOp, PutInBatch, DeleteInBatch, incGCSize, addressToItem, hc, hl, hd, ha, hw, h, h2,
      ModeSetSync, ModeSetAccess]

theorem set_remove_composite (env : Env) (db : DB) (addr : Address) (s a : Int) (d : List Nat)
    (hc : db.useRetrievalCompositeIndex = true) (hl : env.lockAddr = none)
    (hg : env.getFailure .retrievalCompositeIndex = none) (hw : env.writeBatch = none)
    (h : db.retrievalCompositeIndex addr = some (s, a, d)) :
    set env db ModeSetRemove addr = (none,
      { db with
        retrievalCompositeIndex := Function.update db.retrievalCompositeIndex addr none
        pullIndex := db.pullIndex.erase (s, addr)
        gcIndex := db.gcIndex.erase (a, addr)
        gcSize :=
          if env.getFailure .gcIndex = none ∧ (a, addr) ∈ db.gcIndex then db.gcSize + -1
          else db.gcSize }) := by
  rcases hp : env.getFailure .gcIndex with _ | c <;>
  by_cases hm : (a, addr) ∈ db.gcIndex <;>
    simp [set, setFlow, setRemove, removeTail, Get, stored, WriteBatch, applyBatch,
      applyOp, PutInBatch, DeleteInBatch, incGCSize, addressToItem, hc, hl, hg, hw, h, hp, hm,
      ModeSetRemove, ModeSetSync, ModeSetAccess]

theorem set_remove_split (env : Env) (db : DB) (addr : Address) (s : Int) (d : List Nat)
    (hc : db.useRetrievalCompositeIndex = false) (hl : env.lockAddr = none)
    (hd : env.getFailure .retrievalDataIndex = none)
    (ha : env.getFailure .retrievalAccessIndex = none) (hw : env.writeBatch = none)
    (h : db.retrievalDataIndex addr = some (s, d)) :
    set env db ModeSetRemove addr = (none,
      { db with
        retrievalDataIndex := Function.update db.retrievalDataIndex addr none
        retrievalAccessIndex := Function.update db.retrievalAccessIndex addr none
        pullIndex := db.pullIndex.erase (s, addr)
        gcIndex := db.gcIndex.erase ((db.retrievalAccessIndex addr).getD 0, addr)
        gcSize :=
          if env.getFailure .gcIndex = none ∧
              ((db.retrievalAccessIndex addr).getD 0, addr) ∈ db.gcIndex then db.gcSize + -1
          else db.gcSize }) := by
  rcases h2 : db.retrievalAccessIndex addr with _ | a <;>
  rcases hp : env.getFailure .gcIndex with _ | c <;>
  by_cases hm : ((db.retrievalAccessIndex addr).getD 0, addr) ∈ db.gcIndex <;>
    simp [h2] at hm <;>
    simp [set, setFlow, setRemove, setRemoveSplit, removeTail, Get, stored, WriteBatch, applyBatch,
      applyOp, PutInBatch, DeleteInBatch, incGCSize, addressToItem, hc, hl, hd, ha, hw, h, h2, hp, hm,
      ModeSetRemove, ModeSetSync, ModeSetAccess]

/-! ### What a successful call tells about the environment -/

theorem removeTail_flow (env : Env) (db : DB) (batch : Batch) (item : Item) :
    ∃ db1 b, removeTail env db batch item = (db1, Flow.write b) := by
  unfold removeTail
  simp only []
  split <;> exact ⟨_, _, rfl⟩

theorem access_ok_composite (env : Env) (db : DB) (addr : Address)
    (hc : db.useRetrievalCompositeIndex = true)
    (h : (set env db ModeSetAccess addr).1 = none) :
    env.lockAddr = none ∧ env.getFailure .retrievalCompositeIndex = none ∧
      env.writeBatch = none := by
  revert h
  rcases hl : env.lockAddr with _ | c <;>
  rcases hg : env.getFailure .retrievalCompositeIndex with _ | c <;>
  rcases hw : env.writeBatch with _ | c <;>
  rcases hr : db.retrievalCompositeIndex addr with _ | ⟨s, a, d⟩ <;>
    simp [set, setFlow, setAccess, accessTail, Get, stored, WriteBatch, addressToItem, hc, hl, hg,
      hw, hr, ModeSetAccess]

theorem access_ok_split (env : Env) (db : DB) (addr : Address)
    (hc : db.useRetrievalCompositeIndex = false)
    (h : (set env db ModeSetAccess addr).1 = none) :
    env.lockAddr = none ∧ env.getFailure .retrievalDataIndex = none ∧
      env.getFailure .retrievalAccessIndex = none ∧ env.writeBatch = none := by
  revert h
  rcases hl : env.lockAddr with _ | c <;>
  rcases hd : env.getFailure .retrievalDataIndex with _ | c <;>
  rcases ha : env.getFailure .retrievalAccessIndex with _ | c <;>
  rcases hw : env.writeBatch with _ | c <;>
  rcases h1 : db.retrievalDataIndex addr with _ | ⟨s, d⟩ <;>
  rcases h2 : db.retrievalAccessIndex addr with _ | a <;>
    simp [set, setFlow, setAccess, setAccessSplit, accessTail, Get, stored, WriteBatch,
      addressToItem, hc, hl, hd, ha, hw, h1, h2, ModeSetAccess]

theorem sync_ok_composite (env : Env) (db : DB) (addr : Address)
    (hc : db.useRetrievalCompositeIndex = true)
    (h : (set env db ModeSetSync addr).1 = none) :
    env.lockAddr = none ∧ env.getFailure .retrievalCompositeIndex = none ∧
      (db.retrievalCompositeIndex addr ≠ none → env.writeBatch = none) := by
  revert h
  rcases hl : env.lockAddr with _ | c <;>
  rcases hg : env.getFailure .retrievalCompositeIndex with _ | c <;>
  rcases hw : env.writeBatch with _ | c <;>
  rcases hr : db.retrievalCompositeIndex addr with _ | ⟨s, a, d⟩ <;>
    simp [set, setFlow, setSync, Get, stored, addressToItem, hc, hl, hg, hw, hr, ModeSetSync,
      ModeSetAccess]
  all_goals by_cases h0 : a = 0 <;> simp [syncTail, WriteBatch, hw, h0]

theorem sync_ok_split (env : Env) (db : DB) (addr : Address)
    (hc : db.useRetrievalCompositeIndex = false)
    (h : (set env db ModeSetSync addr).1 = none) :
    env.lockAddr = none ∧ env.getFailure .retrievalDataIndex = none ∧
      (db.retrievalDataIndex addr ≠ none →
        env.getFailure .retrievalAccessIndex = none ∧ env.writeBatch = none) := by
  revert h
  rcases hl : env.lockAddr with _ | c <;>
  rcases hd : env.getFailure .retrievalDataIndex with _ | c <;>
  rcases ha : env.getFailure .retrievalAccessIndex with _ | c <;>
  rcases hw : env.writeBatch with _ | c <;>
  rcases h1 : db.retrievalDataIndex addr with _ | ⟨s, d⟩ <;>
  rcases h2 : db.retrievalAccessIndex addr with _ | a <;>
    simp [set, setFlow, setSync, syncTail, Get, stored, WriteBatch, addressToItem, hc, hl, hd, ha,
      hw, h1, h2, ModeSetSync, ModeSetAccess]

theorem remove_ok_composite (env : Env) (db : DB) (addr : Address)
    (hc : db.useRetrievalCompositeIndex = true)
    (h : (set env db ModeSetRemove addr).1 = none) :
    env.lockAddr = none ∧ env.getFailure .retrievalCompositeIndex = none ∧
      env.writeBatch = none ∧ ∃ s a d, db.retrievalCompositeIndex addr = some (s, a, d) := by
  revert h
  rcases hl : env.lockAddr with _ | c <;>
  rcases hg : env.getFailure .retrievalCompositeIndex with _ | c <;>
  rcases hw : env.writeBatch with _ | c <;>
  rcases hr : db.retrievalCompositeIndex addr with _ | ⟨s, a, d⟩ <;>
    simp [set, setFlow, setRemove, Get, stored, addressToItem, hc, hl, hg, hw, hr,
      ModeSetRemove, ModeSetSync, ModeSetAccess]
  all_goals
    obtain ⟨db1, b, hb⟩ := removeTail_flow env db []
      { Address := addr, Data := [], AccessTimestamp := a, StoreTimestamp := s }
    simp [hb, WriteBatch, hw]

theorem remove_ok_split (env : Env) (db : DB) (addr : Address)
    (hc : db.useRetrievalCompositeIndex = false)
    (h : (set env db ModeSetRemove addr).1 = none) :
    env.lockAddr = none ∧ env.getFailure .retrievalDataIndex = none ∧
      env.getFailure .retrievalAccessIndex = none ∧ env.writeBatch = none ∧
      ∃ s d, db.retrievalDataIndex addr = some (s, d) := by
  revert h
  rcases hl : env.lockAddr with _ | c <;>
  rcases hd : env.getFailure .retrievalDataIndex with _ | c <;>
  rcases ha : env.getFailure .retrievalAccessIndex with _ | c <;>
  rcases hw : env.writeBatch with _ | c <;>
  rcases h1 : db.retrievalDataIndex addr with _ | ⟨s, d⟩ <;>
  rcases h2 : db.retrievalAccessIndex addr with _ | a <;>
    simp [set, setFlow, setRemove, setRemoveSplit, Get, stored, addressToItem, hc, hl, hd, ha,
      hw, h1, h2, ModeSetRemove, ModeSetSync, ModeSetAccess]
  · obtain ⟨db1, b, hb⟩ := removeTail_flow env db []
      { Address := addr, Data := [], AccessTimestamp := 0, StoreTimestamp := s }
    simp [hb, WriteBatch, hw]
  · obtain ⟨db1, b, hb⟩ := removeTail_flow env db []
      { Address := addr, Data := [], AccessTimestamp := a, StoreTimestamp := s }
    simp [hb, WriteBatch, hw]

/-! ### The counter is the only thing `setFlow` changes -/

theorem setFlow_db (env : Env) (db : DB) (mode : ModeSet) (addr : Address) :
    ∃ d : Int, (setFlow env db mode addr).1 = incGCSize db d := by
  have h0 : db = incGCSize db 0 := by simp [incGCSize]
  unfold setFlow setAccess setSync setRemove setAccessSplit setRemoveSplit removeTail accessTail
    syncTail
  simp only []
  repeat' split
  all_goals first
    | exact ⟨0, h0⟩
    | exact ⟨_, rfl⟩
    | exact ⟨-1 + 1, by simp [incGCSize, add_assoc]⟩

theorem setFlow_ret (env : Env) (db : DB) (mode : ModeSet) (addr : Address) (e : Option Error)
    (h : (setFlow env db mode addr).2 = .ret e) : (setFlow env db mode addr).1 = db := by
  revert h
  unfold setFlow setAccess setSync setRemove setAccessSplit setRemoveSplit removeTail accessTail
    syncTail
  simp only []
  repeat' split
  all_goals simp

theorem sameIndexes_incGCSize (db : DB) (d : Int) : sameIndexes (incGCSize db d) db := by
  simp [sameIndexes, incGCSize]

theorem set_error_state (env : Env) (db : DB) (mode : ModeSet) (addr : Address)
    (h : (set env db mode addr).1 ≠ none) :
    sameIndexes (set env db mode addr).2 db ∧
      (env.writeBatch = none → (set env db mode addr).2 = db) := by
  have hsame : sameIndexes db db := by simp [sameIndexes]
  unfold set at h ⊢
  rcases hl : env.lockAddr with _ | c
  · simp only [hl] at h ⊢
    rcases hf : setFlow env db mode addr with ⟨db1, _ | batch⟩
    · have := setFlow_ret env db mode addr _ (by rw [hf])
      rw [hf] at this
      simp only at this
      subst this
      simp [hsame]
    · obtain ⟨d, hd⟩ := setFlow_db env db mode addr
      rw [hf] at hd
      simp only at hd
      subst hd
      rw [hf] at h
      simp only [WriteBatch] at h ⊢
      rcases hw : env.writeBatch with _ | c
      · simp [hw] at h
      · simp [sameIndexes_incGCSize]
  · simp [hsame]

/-! ### Access and Sync read the canonical records of the address only -/

theorem set_fst (env : Env) (db : DB) (mode : ModeSet) (addr : Address) :
    (set env db mode addr).1 =
      match env.lockAddr with
      | some c => some (.failure c)
      | none =>
        match (setFlow env db mode addr).2 with
        | .ret e => e
        | .write _ => env.writeBatch.map Error.failure := by
  unfold set
  rcases hl : env.lockAddr with _ | c
  · rcases hf : setFlow env db mode addr with ⟨db1, e | batch⟩
    · simp
    · rcases hw : env.writeBatch with _ | c <;> simp [WriteBatch, hw]
  · simp

theorem setFlow_congr (env : Env) (db1 db0 : DB) (mode : ModeSet) (addr : Address)
    (hm : mode = ModeSetAccess ∨ mode = ModeSetSync)
    (hlay : db1.useRetrievalCompositeIndex = db0.useRetrievalCompositeIndex)
    (h1 : db1.retrievalCompositeIndex addr = db0.retrievalCompositeIndex addr)
    (h2 : db1.retrievalDataIndex addr = db0.retrievalDataIndex addr)
    (h3 : db1.retrievalAccessIndex addr = db0.retrievalAccessIndex addr) :
    (setFlow env db1 mode addr).2 = (setFlow env db0 mode addr).2 ∧
      (setFlow env db1 mode addr).1.gcSize - db1.gcSize =
        (setFlow env db0 mode addr).1.gcSize - db0.gcSize := by
  rcases hm with rfl | rfl <;>
  rcases hc : db0.useRetrievalCompositeIndex with _ | _ <;>
  rcases hg : env.getFailure .retrievalCompositeIndex with _ | c <;>
  rcases hd : env.getFailure .retrievalDataIndex with _ | c <;>
  rcases ha : env.getFailure .retrievalAccessIndex with _ | c <;>
  rcases r1 : db0.retrievalCompositeIndex addr with _ | ⟨s, a, d⟩ <;>
  rcases r2 : db0.retrievalDataIndex addr with _ | ⟨s, d⟩ <;>
  rcases r3 : db0.retrievalAccessIndex addr with _ | a <;>
    simp [setFlow, setAccess, setAccessSplit, accessTail, setSync, syncTail, Get, stored,
      incGCSize, addressToItem, hlay, h1, h2, h3, hc, hg, hd, ha, r1, r2, r3, ModeSetSync,
      ModeSetAccess] <;>
    split <;> simp [incGCSize]

theorem set_remove_notFound (env : Env) (db : DB) (addr : Address)
    (hl : env.lockAddr = none) (hf : ∀ idx, env.getFailure idx = none)
    (h : hasCanonical db addr = false) :
    set env db ModeSetRemove addr = (some .ErrNotFound, db) := by
  rcases hc : db.useRetrievalCompositeIndex with _ | _
  · rcases h1 : db.retrievalDataIndex addr with _ | ⟨s, d⟩
    · rcases h2 : db.retrievalAccessIndex addr with _ | a <;>
        simp [set, setFlow, setRemove, setRemoveSplit, Get, stored, addressToItem, hc, hl, hf,
          h1, h2, ModeSetRemove, ModeSetSync, ModeSetAccess]
    · simp [hasCanonical, hc, h1] at h
  · rcases h1 : db.retrievalCompositeIndex addr with _ | ⟨s, a, d⟩
    · simp [set, setFlow, setRemove, Get, stored, addressToItem, hc, hl, hf, h1,
        ModeSetRemove, ModeSetSync, ModeSetAccess]
    · simp [hasCanonical, hc, h1] at h

/-! ### The claims -/

/-- C10. For every mode value other than ModeSetAccess, ModeSetSync and
ModeSetRemove, every state and address, `set` leaves the database (all indexes
and the GC size counter) unchanged, and returns `ErrInvalidMode` as soon as the
address lock is acquired. -/
theorem C10_invalid_mode (env : Env) (db : DB) (mode : ModeSet) (addr : Address)
    (h0 : mode ≠ ModeSetAccess) (h1 : mode ≠ ModeSetSync) (h2 : mode ≠ ModeSetRemove) :
    (set env db mode addr).2 = db ∧
      (env.lockAddr = none → set env db mode addr = (some .ErrInvalidMode, db)) := by
  rcases hl : env.lockAddr with _ | c <;> simp [set, setFlow, hl, h0, h1, h2]

theorem C10_invalid_mode_witness :
    (set (calm 5) (freshDB true) 3 [1]).2 = freshDB true ∧
      ((calm 5).lockAddr = none →
        set (calm 5) (freshDB true) 3 [1] = (some .ErrInvalidMode, freshDB true)) :=
  C10_invalid_mode (calm 5) (freshDB true) 3 [1] (by decide) (by decide) (by decide)

/-- C9. When the lock is acquired and no read fails: `set(ModeSetRemove, addr)`
returns `ErrNotFound` and leaves the database unchanged when the canonical record
is missing (composite index in the composite layout, data index in the split
layout); and in the split layout, when the data record exists and the access
record does not, Remove succeeds provided the batch write does. -/
theorem C9_remove_requires_chunk (env : Env) (db : DB) (addr : Address)
    (hl : env.lockAddr = none) (hf : ∀ idx, env.getFailure idx = none) :
    (hasCanonical db addr = false →
        set env db ModeSetRemove addr = (some .ErrNotFound, db)) ∧
      (db.useRetrievalCompositeIndex = false → db.retrievalDataIndex addr ≠ none →
        db.retrievalAccessIndex addr = none → env.writeBatch = none →
        (set env db ModeSetRemove addr).1 = none) := by
  constructor
  · exact set_remove_notFound env db addr hl hf
  · intro hc h1 _ hw
    rcases h3 : db.retrievalDataIndex addr with _ | ⟨s, d⟩
    · exact absurd h3 h1
    · rw [set_remove_split env db addr s d hc hl (hf _) (hf _) hw h3]

theorem C9_remove_requires_chunk_witness :
    (hasCanonical (freshDB false) [1] = false →
        set (calm 5) (freshDB false) ModeSetRemove [1] = (some .ErrNotFound, freshDB false)) ∧
      ((freshDB false).useRetrievalCompositeIndex = false →
        (freshDB false).retrievalDataIndex [1] ≠ none →
        (freshDB false).retrievalAccessIndex [1] = none → (calm 5).writeBatch = none →
        (set (calm 5) (freshDB false) ModeSetRemove [1]).1 = none) :=
  C9_remove_requires_chunk (calm 5) (freshDB false) [1] rfl (fun _ => rfl)

/-- C7 (as amended). If `set` returns a non-nil error then every index is
exactly as before the call; the GC size counter is as before as well unless the
error is the failure of the final `WriteBatch`. -/
theorem C7_error_keeps_indexes (env : Env) (db : DB) (mode : ModeSet) (addr : Address)
    (h : (set env db mode addr).1 ≠ none) :
    sameIndexes (set env db mode addr).2 db ∧
      (env.writeBatch = none → (set env db mode addr).2 = db) :=
  set_error_state env db mode addr h

theorem C7_error_keeps_indexes_witness :
    sameIndexes (set (calm 5) (emptyDB true) ModeSetRemove [1]).2 (emptyDB true) ∧
      ((calm 5).writeBatch = none →
        (set (calm 5) (emptyDB true) ModeSetRemove [1]).2 = emptyDB true) :=
  C7_error_keeps_indexes (calm 5) (emptyDB true) ModeSetRemove [1] (by decide)

/-- C7, counterexample. In the split layout an Access of the stored, never
accessed chunk whose batch write fails returns the error, and the counter has
moved from 0 to 1. -/
theorem C7_counterexample :
    (set { calm 200 with writeBatch := some 1 } (freshDB false) ModeSetAccess [1]).1 ≠ none ∧
      (set { calm 200 with writeBatch := some 1 } (freshDB false) ModeSetAccess [1]).2.gcSize
        ≠ (freshDB false).gcSize := by
  decide

/-- C3 (as amended). For every state and every address without a canonical
record, when the lock is acquired and the read of the canonical index does not
fail, `set(ModeSetSync, addr)` returns nil, the address still has no canonical
record, and the GC index and the GC size counter are unchanged; so there is no
GC entry for the address afterwards if there was none before. -/
theorem C3_sync_unknown (env : Env) (db : DB) (addr : Address)
    (hn : hasCanonical db addr = false) (hl : env.lockAddr = none)
    (hg : env.getFailure (canonicalIndex db) = none) :
    (set env db ModeSetSync addr).1 = none ∧
      hasCanonical (set env db ModeSetSync addr).2 addr = false ∧
      (set env db ModeSetSync addr).2.gcIndex = db.gcIndex ∧
      (set env db ModeSetSync addr).2.gcSize = db.gcSize := by
  rcases hc : db.useRetrievalCompositeIndex with _ | _
  · have h1 : db.retrievalDataIndex addr = none := by
      simpa [hasCanonical, hc] using hn
    have hd : env.getFailure .retrievalDataIndex = none := by
      simpa [canonicalIndex, hc] using hg
    rw [set_sync_split_notFound env db addr hc hl hd h1]
    exact ⟨rfl, hn, rfl, rfl⟩
  · have h1 : db.retrievalCompositeIndex addr = none := by
      simpa [hasCanonical, hc] using hn
    have hd : env.getFailure .retrievalCompositeIndex = none := by
      simpa [canonicalIndex, hc] using hg
    rw [set_sync_composite_notFound env db addr hc hl hd h1]
    exact ⟨rfl, hn, rfl, rfl⟩

theorem C3_sync_unknown_witness :
    (set (calm 5) (emptyDB true) ModeSetSync [1]).1 = none ∧
      hasCanonical (set (calm 5) (emptyDB true) ModeSetSync [1]).2 [1] = false ∧
      (set (calm 5) (emptyDB true) ModeSetSync [1]).2.gcIndex = (emptyDB true).gcIndex ∧
      (set (calm 5) (emptyDB true) ModeSetSync [1]).2.gcSize = (emptyDB true).gcSize :=
  C3_sync_unknown (calm 5) (emptyDB true) [1] (by decide) rfl rfl

/-- C3, counterexample. Split layout: the address `[1]` has a Push entry and
has been accessed without ever being stored, so it has a GC entry and no
canonical record. `set(ModeSetSync, [1])` returns nil, and both the GC entry
and the Push entry of the address are still there. -/
theorem C3_counterexample :
    hasCanonical (accessedUnknownDB) [1] = false ∧
      (set (calm 300) accessedUnknownDB ModeSetSync [1]).1 = none ∧
      (200, [1]) ∈ (set (calm 300) accessedUnknownDB ModeSetSync [1]).2.gcIndex ∧
      (100, [1]) ∈ (set (calm 300) accessedUnknownDB ModeSetSync [1]).2.pushIndex := by
  decide

/-- C4 (as amended). If `set(ModeSetRemove, addr)` returns nil then afterwards
the address has no canonical record (and no access record in the split
layout), the Pull entry keyed by the chunk's store timestamp and the GC entry
keyed by its access timestamp are gone while no Pull or GC entry has been
added, and the Push index is as it was before the call. -/
theorem C4_remove_clears (env : Env) (db : DB) (addr : Address)
    (h : (set env db ModeSetRemove addr).1 = none) :
    hasCanonical (set env db ModeSetRemove addr).2 addr = false ∧
      accessTimestampOf (set env db ModeSetRemove addr).2 addr = none ∧
      (∀ t, (t, addr) ∈ (set env db ModeSetRemove addr).2.pullIndex →
        (t, addr) ∈ db.pullIndex ∧ storeTimestampOf db addr ≠ some t) ∧
      (∀ t, (t, addr) ∈ (set env db ModeSetRemove addr).2.gcIndex →
        (t, addr) ∈ db.gcIndex ∧ accessTimestampOf db addr ≠ some t) ∧
      (set env db ModeSetRemove addr).2.pushIndex = db.pushIndex := by
  rcases hc : db.useRetrievalCompositeIndex with _ | _
  · obtain ⟨hl, hd, ha, hw, s, d, hr⟩ := remove_ok_split env db addr hc h
    rw [set_remove_split env db addr s d hc hl hd ha hw hr]
    refine ⟨by simp [hasCanonical, hc], by simp [accessTimestampOf, hc], ?_, ?_, rfl⟩
    · intro t ht
      simp only [Finset.mem_erase] at ht
      refine ⟨ht.2, ?_⟩
      simp only [storeTimestampOf, hc, hr]
      intro h'
      apply ht.1
      simp at h'
      simp [h']
    · intro t ht
      simp only [Finset.mem_erase] at ht
      refine ⟨ht.2, ?_⟩
      simp only [accessTimestampOf, hc]
      intro h'
      apply ht.1
      simp at h'
      simp [h']
  · obtain ⟨hl, hg, hw, s, a, d, hr⟩ := remove_ok_composite env db addr hc h
    rw [set_remove_composite env db addr s a d hc hl hg hw hr]
    refine ⟨by simp [hasCanonical, hc], by simp [accessTimestampOf, hc], ?_, ?_, rfl⟩
    · intro t ht
      simp only [Finset.mem_erase] at ht
      refine ⟨ht.2, ?_⟩
      simp only [storeTimestampOf, hc, hr]
      intro h'
      apply ht.1
      simp at h'
      simp [h']
    · intro t ht
      simp only [Finset.mem_erase] at ht
      refine ⟨ht.2, ?_⟩
      simp only [accessTimestampOf, hc, hr]
      intro h'
      apply ht.1
      simp at h'
      simp [h']

theorem C4_remove_clears_witness :
    hasCanonical (set (calm 5) (freshDB true) ModeSetRemove [1]).2 [1] = false ∧
      accessTimestampOf (set (calm 5) (freshDB true) ModeSetRemove [1]).2 [1] = none ∧
      (∀ t, (t, [1]) ∈ (set (calm 5) (freshDB true) ModeSetRemove [1]).2.pullIndex →
        (t, [1]) ∈ (freshDB true).pullIndex ∧ storeTimestampOf (freshDB true) [1] ≠ some t) ∧
      (∀ t, (t, [1]) ∈ (set (calm 5) (freshDB true) ModeSetRemove [1]).2.gcIndex →
        (t, [1]) ∈ (freshDB true).gcIndex ∧ accessTimestampOf (freshDB true) [1] ≠ some t) ∧
      (set (calm 5) (freshDB true) ModeSetRemove [1]).2.pushIndex = (freshDB true).pushIndex :=
  C4_remove_clears (calm 5) (freshDB true) [1] (by decide)

/-- C4, counterexample. In both layouts, removing the stored chunk `[1]` that
is still in the Push index succeeds and leaves its Push entry in place. -/
theorem C4_counterexample :
    ((set (calm 400) (freshDB true) ModeSetRemove [1]).1 = none ∧
        (100, [1]) ∈ (set (calm 400) (freshDB true) ModeSetRemove [1]).2.pushIndex) ∧
      ((set (calm 400) (freshDB false) ModeSetRemove [1]).1 = none ∧
        (100, [1]) ∈ (set (calm 400) (freshDB false) ModeSetRemove [1]).2.pushIndex) := by
  decide

/-- C8. In both layouts, if `set(ModeSetRemove, addr)` returns nil then
(1) an immediately following `set(ModeSetRemove, addr)` whose lock is acquired
and whose reads do not fail returns `ErrNotFound` and leaves the database
unchanged, and (2) an immediately following Access or Sync on the address
returns the same result, hands the same batch of index operations to
`WriteBatch` (or returns early in the same way) and adjusts the counter by the
same amount as it does on any database of the same layout in which the address
was never stored. -/
theorem C8_remove_terminal (env env2 env3 : Env) (db db0 : DB) (mode : ModeSet) (addr : Address)
    (h : (set env db ModeSetRemove addr).1 = none)
    (hl : env2.lockAddr = none) (hf : ∀ idx, env2.getFailure idx = none)
    (hm : mode = ModeSetAccess ∨ mode = ModeSetSync)
    (h0 : neverStored db0 addr)
    (hlay : db0.useRetrievalCompositeIndex = db.useRetrievalCompositeIndex) :
    set env2 (set env db ModeSetRemove addr).2 ModeSetRemove addr =
        (some .ErrNotFound, (set env db ModeSetRemove addr).2) ∧
      (set env3 (set env db ModeSetRemove addr).2 mode addr).1 = (set env3 db0 mode addr).1 ∧
      (setFlow env3 (set env db ModeSetRemove addr).2 mode addr).2 =
        (setFlow env3 db0 mode addr).2 ∧
      (setFlow env3 (set env db ModeSetRemove addr).2 mode addr).1.gcSize -
          (set env db ModeSetRemove addr).2.gcSize =
        (setFlow env3 db0 mode addr).1.gcSize - db0.gcSize := by
  obtain ⟨n1, n2, n3, -, -, -⟩ := h0
  have key : (set env db ModeSetRemove addr).2.useRetrievalCompositeIndex =
        db.useRetrievalCompositeIndex ∧
      hasCanonical (set env db ModeSetRemove addr).2 addr = false ∧
      ((set env db ModeSetRemove addr).2.retrievalCompositeIndex addr =
          db0.retrievalCompositeIndex addr ∨ db.useRetrievalCompositeIndex = false) ∧
      ((set env db ModeSetRemove addr).2.retrievalDataIndex addr = none ∧
          (set env db ModeSetRemove addr).2.retrievalAccessIndex addr = none ∨
        db.useRetrievalCompositeIndex = true) := by
    rcases hc : db.useRetrievalCompositeIndex with _ | _
    · obtain ⟨hl1, hd1, ha1, hw1, s, d, hr⟩ := remove_ok_split env db addr hc h
      rw [set_remove_split env db addr s d hc hl1 hd1 ha1 hw1 hr]
      simp [hasCanonical, hc]
    · obtain ⟨hl1, hg1, hw1, s, a, d, hr⟩ := remove_ok_composite env db addr hc h
      rw [set_remove_composite env db addr s a d hc hl1 hg1 hw1 hr]
      simp [hasCanonical, hc, n1]
  obtain ⟨klay, kcan, kcomp, ksplit⟩ := key
  generalize set env db ModeSetRemove addr = r at *
  refine ⟨?_, ?_⟩
  · exact (set_remove_notFound env2 r.2 addr hl hf kcan)
  · have hflow : (setFlow env3 r.2 mode addr).2 = (setFlow env3 db0 mode addr).2 ∧
        (setFlow env3 r.2 mode addr).1.gcSize - r.2.gcSize =
          (setFlow env3 db0 mode addr).1.gcSize - db0.gcSize := by
      rcases hc : db.useRetrievalCompositeIndex with _ | _
      · rcases ksplit with ⟨k2, k3⟩ | k
        · rcases hm with rfl | rfl <;>
          rcases hd : env3.getFailure .retrievalDataIndex with _ | c <;>
          rcases ha : env3.getFailure .retrievalAccessIndex with _ | c <;>
            simp [setFlow, setAccess, setAccessSplit, accessTail, setSync, syncTail, Get, stored,
              incGCSize, addressToItem, klay, hlay, hc, k2, k3, n2, n3, hd, ha, ModeSetSync,
              ModeSetAccess]
        · simp [hc] at k
      · rcases kcomp with k1 | k
        · rcases hm with rfl | rfl <;>
          rcases hg : env3.getFailure .retrievalCompositeIndex with _ | c <;>
            simp [setFlow, setAccess, accessTail, setSync, syncTail, Get, stored,
              incGCSize, addressToItem, klay, hlay, hc, k1, n1, hg, ModeSetSync, ModeSetAccess]
        · simp [hc] at k
    refine ⟨?_, hflow.1, hflow.2⟩
    rw [set_fst, set_fst, hflow.1]

theorem C8_remove_terminal_witness :
    set (calm 500) (set (calm 400) (freshDB false) ModeSetRemove [1]).2 ModeSetRemove [1] =
        (some .ErrNotFound, (set (calm 400) (freshDB false) ModeSetRemove [1]).2) ∧
      (set (calm 600) (set (calm 400) (freshDB false) ModeSetRemove [1]).2 ModeSetAccess [1]).1 =
        (set (calm 600) (emptyDB false) ModeSetAccess [1]).1 ∧
      (setFlow (calm 600) (set (calm 400) (freshDB false) ModeSetRemove [1]).2
          ModeSetAccess [1]).2 =
        (setFlow (calm 600) (emptyDB false) ModeSetAccess [1]).2 ∧
      (setFlow (calm 600) (set (calm 400) (freshDB false) ModeSetRemove [1]).2
          ModeSetAccess [1]).1.gcSize -
          (set (calm 400) (freshDB false) ModeSetRemove [1]).2.gcSize =
        (setFlow (calm 600) (emptyDB false) ModeSetAccess [1]).1.gcSize - (emptyDB false).gcSize :=
  C8_remove_terminal (calm 400) (calm 500) (calm 600) (freshDB false) (emptyDB false)
    ModeSetAccess [1] (by decide) rfl (fun _ => rfl) (Or.inl rfl)
    (by unfold neverStored; decide) rfl

/-- C5. The lifecycle Access, Sync, Remove of the chunk stored at time 100 and
seeded in the Push index, evaluated in both layouts. In the split layout every
step succeeds and the scenario is as claimed. In the composite layout every
step succeeds too, but after Access the recorded access timestamp is still 0
and the counter is 0 with one GC entry, after Sync the GC index holds two
entries for the chunk, and after Remove the GC entry `(0, [1])` is still there
while the counter is 0. -/
theorem C5_lifecycle :
    ((afterAccess false).1 = none ∧ (afterSync false).1 = none ∧ (afterRemove false).1 = none ∧
        accessTimestampOf (afterAccess false).2 [1] = some 200 ∧
        (afterAccess false).2.gcIndex.card = 1 ∧
        entriesOf (afterSync false).2.pushIndex [1] = ∅ ∧
        (afterSync false).2.gcIndex.card = 1 ∧
        hasCanonical (afterRemove false).2 [1] = false ∧
        entriesOf (afterRemove false).2.pullIndex [1] = ∅ ∧
        entriesOf (afterRemove false).2.gcIndex [1] = ∅ ∧
        (afterRemove false).2.gcSize = 0) ∧
      ((afterAccess true).1 = none ∧ (afterSync true).1 = none ∧ (afterRemove true).1 = none ∧
        accessTimestampOf (afterAccess true).2 [1] = some 0 ∧
        (afterAccess true).2.gcIndex = {(0, [1])} ∧
        (afterAccess true).2.gcSize = 0 ∧
        entriesOf (afterSync true).2.pushIndex [1] = ∅ ∧
        (afterSync true).2.gcIndex.card = 2 ∧
        (afterSync true).2.gcSize = 1 ∧
        hasCanonical (afterRemove true).2 [1] = false ∧
        (0, [1]) ∈ (afterRemove true).2.gcIndex ∧
        (afterRemove true).2.gcSize = 0) := by
  decide

/-- C6. Composite layout, chunk `[1]` last accessed at time 7: an Access at
clock value 50 succeeds, the Pull index holds an entry of the chunk, but the
GC index still holds exactly the entry keyed by 7 and none keyed by 50, and
the recorded access timestamp is still 7. -/
theorem C6_access_composite_stale :
    (set (calm 50) accessedDB ModeSetAccess [1]).1 = none ∧
      (100, [1]) ∈ (set (calm 50) accessedDB ModeSetAccess [1]).2.pullIndex ∧
      (set (calm 50) accessedDB ModeSetAccess [1]).2.gcIndex = {(7, [1])} ∧
      (50, [1]) ∉ (set (calm 50) accessedDB ModeSetAccess [1]).2.gcIndex ∧
      accessTimestampOf (set (calm 50) accessedDB ModeSetAccess [1]).2 [1] = some 7 := by
  decide

/-! ### Counting GC entries -/

theorem restamp_inv (gc : Finset (Int × Address)) (acc : Address → Option Int) (n : Int)
    (addr : Address) (t : Int)
    (hcoup : ∀ x a, (a, x) ∈ gc ↔ acc x = some a) (hn : n = gc.card) :
    (∀ x a, (a, x) ∈ insert (t, addr)
          (match acc addr with
            | some b => gc.erase (b, addr)
            | none => gc) ↔
        Function.update acc addr (some t) x = some a) ∧
      (match acc addr with
        | some _ => n + -1 + 1
        | none => n + 1) =
        ((insert (t, addr)
          (match acc addr with
            | some b => gc.erase (b, addr)
            | none => gc)).card : Int) := by
  rcases h : acc addr with _ | b
  · have hnot : ∀ a, (a, addr) ∉ gc := by
      intro a ha
      have := (hcoup addr a).1 ha
      simp [h] at this
    constructor
    · intro x a
      by_cases hx : x = addr
      · subst hx
        simp only [Finset.mem_insert, Prod.mk.injEq, Function.update_same, Option.some.injEq]
        constructor
        · rintro (⟨rfl, -⟩ | h')
          · rfl
          · exact absurd h' (hnot a)
        · rintro rfl
          exact Or.inl ⟨rfl, trivial⟩
      · simp only [Finset.mem_insert, Prod.mk.injEq, hx, and_false, false_or,
          Function.update_noteq hx]
        exact hcoup x a
    · simp only
      rw [Finset.card_insert_of_not_mem (hnot t), hn]
      push_cast
      rfl
  · have hb : (b, addr) ∈ gc := (hcoup addr b).2 h
    have honly : ∀ a, (a, addr) ∈ gc → a = b := by
      intro a ha
      have := (hcoup addr a).1 ha
      rw [h] at this
      exact (Option.some.inj this).symm
    have hfresh : (t, addr) ∉ gc.erase (b, addr) := by
      intro ht
      rw [Finset.mem_erase] at ht
      exact ht.1 (by rw [honly t ht.2])
    constructor
    · intro x a
      by_cases hx : x = addr
      · subst hx
        simp only [Finset.mem_insert, Prod.mk.injEq, Function.update_same, Option.some.injEq,
          Finset.mem_erase]
        constructor
        · rintro (⟨rfl, -⟩ | ⟨h1, h2⟩)
          · rfl
          · exact absurd (by rw [honly a h2]) h1
        · rintro rfl
          exact Or.inl ⟨rfl, trivial⟩
      · simp only [Finset.mem_insert, Prod.mk.injEq, hx, and_false, false_or,
          Function.update_noteq hx, Finset.mem_erase, ne_eq, not_false_eq_true, true_and]
        exact hcoup x a
    · simp only
      rw [Finset.card_insert_of_not_mem hfresh, hn]
      have h2 : ((gc.erase (b, addr)).card : Int) + 1 = gc.card := by
        exact_mod_cast Finset.card_erase_add_one hb
      simp only [neg_add_cancel_right]
      push_cast
      linarith

theorem unstamp_inv (gc : Finset (Int × Address)) (acc : Address → Option Int) (n : Int)
    (addr : Address)
    (hcoup : ∀ x a, (a, x) ∈ gc ↔ acc x = some a) (hn : n = gc.card) :
    (∀ x a, (a, x) ∈ gc.erase ((acc addr).getD 0, addr) ↔
        Function.update acc addr none x = some a) ∧
      (if ((acc addr).getD 0, addr) ∈ gc then n + -1 else n) =
        ((gc.erase ((acc addr).getD 0, addr)).card : Int) := by
  constructor
  · intro x a
    by_cases hx : x = addr
    · subst hx
      simp only [Finset.mem_erase, ne_eq, Prod.mk.injEq, and_true, Function.update_same]
      constructor
      · rintro ⟨h1, h2⟩
        have := (hcoup x a).1 h2
        simp [this] at h1
      · intro h
        simp at h
    · simp only [Finset.mem_erase, ne_eq, Prod.mk.injEq, hx, and_false, not_false_eq_true,
        true_and, Function.update_noteq hx]
      exact hcoup x a
  · by_cases hm : ((acc addr).getD 0, addr) ∈ gc
    · have h2 : ((gc.erase ((acc addr).getD 0, addr)).card : Int) + 1 = gc.card := by
        exact_mod_cast Finset.card_erase_add_one hm
      simp only [hm, if_true, hn]
      linarith
    · simp only [hm, if_false, hn, Finset.erase_eq_of_not_mem hm]

/-! ### The split layout keeps the counter and the coupling -/

theorem split_step (env : Env) (db : DB) (mode : ModeSet) (addr : Address)
    (hc : db.useRetrievalCompositeIndex = false) (hcoup : coupled db) (hn : counterInv db)
    (hp : mode = ModeSetRemove → env.getFailure .gcIndex = none)
    (h : (set env db mode addr).1 = none) :
    (set env db mode addr).2.useRetrievalCompositeIndex = false ∧
      coupled (set env db mode addr).2 ∧ counterInv (set env db mode addr).2 := by
  by_cases h0 : mode = ModeSetAccess
  · subst h0
    obtain ⟨hl, hd, ha, hw⟩ := access_ok_split env db addr hc h
    rw [set_access_split env db addr hc hl hd ha hw]
    rcases h1 : db.retrievalDataIndex addr with _ | ⟨s, d⟩ <;>
    rcases h2 : db.retrievalAccessIndex addr with _ | a
    · have R := restamp_inv db.gcIndex db.retrievalAccessIndex db.gcSize addr (env.now 1) hcoup hn
      rw [h2] at R
      exact ⟨hc, R.1, R.2⟩
    · have R := restamp_inv db.gcIndex db.retrievalAccessIndex db.gcSize addr (env.now 1) hcoup hn
      rw [h2] at R
      exact ⟨hc, R.1, R.2⟩
    · have R := restamp_inv db.gcIndex db.retrievalAccessIndex db.gcSize addr (env.now 0) hcoup hn
      rw [h2] at R
      exact ⟨hc, R.1, R.2⟩
    · have R := restamp_inv db.gcIndex db.retrievalAccessIndex db.gcSize addr (env.now 0) hcoup hn
      rw [h2] at R
      exact ⟨hc, R.1, R.2⟩
  · by_cases h1 : mode = ModeSetSync
    · subst h1
      obtain ⟨hl, hd, hrest⟩ := sync_ok_split env db addr hc h
      rcases hr : db.retrievalDataIndex addr with _ | ⟨s, d⟩
      · rw [set_sync_split_notFound env db addr hc hl hd hr]
        exact ⟨hc, hcoup, hn⟩
      · obtain ⟨ha, hw⟩ := hrest (by simp [hr])
        rw [set_sync_split env db addr s d hc hl hd ha hw hr]
        have R := restamp_inv db.gcIndex db.retrievalAccessIndex db.gcSize addr (env.now 0)
          hcoup hn
        exact ⟨hc, R.1, R.2⟩
    · by_cases h2 : mode = ModeSetRemove
      · subst h2
        obtain ⟨hl, hd, ha, hw, s, d, hr⟩ := remove_ok_split env db addr hc h
        rw [set_remove_split env db addr s d hc hl hd ha hw hr]
        have R := unstamp_inv db.gcIndex db.retrievalAccessIndex db.gcSize addr hcoup hn
        refine ⟨hc, R.1, ?_⟩
        simp only [counterInv, hp rfl, true_and]
        exact R.2
      · exfalso
        revert h
        rcases hl : env.lockAddr with _ | c <;> simp [set, setFlow, hl, h0, h1, h2]

theorem split_setAll (calls : List Call) (db db1 : DB)
    (hc : db.useRetrievalCompositeIndex = false) (hcoup : coupled db) (hn : counterInv db)
    (hp : ∀ c ∈ calls, c.mode = ModeSetRemove → c.env.getFailure .gcIndex = none)
    (h : setAll db calls = some db1) :
    db1.useRetrievalCompositeIndex = false ∧ coupled db1 ∧ counterInv db1 := by
  induction calls generalizing db with
  | nil =>
    simp only [setAll, Option.some.injEq] at h
    subst h
    exact ⟨hc, hcoup, hn⟩
  | cons c cs ih =>
    rcases hs : set c.env db c.mode c.addr with ⟨_ | e, db2⟩
    · have hok : (set c.env db c.mode c.addr).1 = none := by rw [hs]
      have step := split_step c.env db c.mode c.addr hc hcoup hn
        (hp c (List.mem_cons_self _ _)) hok
      rw [hs] at step
      simp only [setAll, hs] at h
      exact ih db2 step.1 step.2.1 step.2.2
        (fun x hx => hp x (List.mem_cons_of_mem _ hx)) h
    · simp [setAll, hs] at h

/-- C1 (as amended). Split layout: from every state in which the GC size
counter equals the number of GC entries and the GC index holds `(a, addr)`
exactly when the access index records `a` for `addr`, after each call of any
sequence of calls of `set` that return nil (the probe of the GC index made by
Remove not failing), over any addresses, the counter again equals the number of
GC entries, and the coupling holds again. A single call is the sequence of
length one. -/
theorem C1_counter_invariant (calls : List Call) (db : DB) (k : Nat)
    (hc : db.useRetrievalCompositeIndex = false) (hcoup : coupled db) (hn : counterInv db)
    (hp : ∀ c ∈ calls, c.mode = ModeSetRemove → c.env.getFailure .gcIndex = none) :
    ∀ db1, setAll db (calls.take k) = some db1 → counterInv db1 ∧ coupled db1 := by
  intro db1 h
  have := split_setAll (calls.take k) db db1 hc hcoup hn
    (fun c hx => hp c (List.mem_of_mem_take hx)) h
  exact ⟨this.2.2, this.2.1⟩

theorem C1_counter_invariant_witness :
    (setAll (freshDB false) (lifecycle.take 2)).isSome = true ∧
      ∀ db1, setAll (freshDB false) (lifecycle.take 2) = some db1 →
        counterInv db1 ∧ coupled db1 :=
  ⟨by decide, C1_counter_invariant lifecycle (freshDB false) 2 rfl
    (by intro addr a; simp [freshDB, emptyDB]) (by simp [counterInv, freshDB, emptyDB])
    (by intro c hc _; simp [lifecycle] at hc; rcases hc with rfl | rfl | rfl <;> rfl)⟩

/-- C1, counterexample. In each layout there is a state in which the counter
equals the number of GC entries and an Access that returns nil after which it
does not: in the split layout the state with an access record but no GC entry,
in the composite layout the stored, never accessed chunk. -/
theorem C1_counterexample :
    (counterInv uncoupledDB ∧ (set (calm 200) uncoupledDB ModeSetAccess [1]).1 = none ∧
        ¬ counterInv (set (calm 200) uncoupledDB ModeSetAccess [1]).2) ∧
      (counterInv (freshDB true) ∧ (set (calm 200) (freshDB true) ModeSetAccess [1]).1 = none ∧
        ¬ counterInv (set (calm 200) (freshDB true) ModeSetAccess [1]).2) := by
  unfold counterInv
  decide

/-! ### Access of a stored chunk -/

theorem entriesOf_insert (S : Finset (Int × Address)) (addr : Address) (s : Int)
    (h : ∀ t, (t, addr) ∈ S → t = s) :
    entriesOf (insert (s, addr) S) addr = {(s, addr)} := by
  ext ⟨t, x⟩
  simp only [entriesOf, Finset.mem_filter, Finset.mem_insert, Prod.mk.injEq,
    Finset.mem_singleton]
  constructor
  · rintro ⟨⟨rfl, rfl⟩ | hm, hx⟩
    · exact ⟨rfl, rfl⟩
    · subst hx
      exact ⟨h t hm, rfl⟩
  · rintro ⟨rfl, rfl⟩
    exact ⟨Or.inl ⟨rfl, rfl⟩, rfl⟩

theorem mem_of_entriesOf_eq (S : Finset (Int × Address)) (addr : Address) (s t : Int)
    (h : entriesOf S addr = {(s, addr)}) (ht : (t, addr) ∈ S) : t = s := by
  have : (t, addr) ∈ entriesOf S addr := by
    simp [entriesOf, ht]
  rw [h] at this
  simpa using this

theorem access_stored (env : Env) (db : DB) (addr : Address)
    (hcan : hasCanonical db addr = true)
    (hpull : ∀ t, (t, addr) ∈ db.pullIndex → storeTimestampOf db addr = some t)
    (hgc : ∀ t, (t, addr) ∈ db.gcIndex → accessTimestampOf db addr = some t)
    (h : (set env db ModeSetAccess addr).1 = none) :
    (set env db ModeSetAccess addr).2.useRetrievalCompositeIndex =
        db.useRetrievalCompositeIndex ∧
      hasCanonical (set env db ModeSetAccess addr).2 addr = true ∧
      ∃ s t, storeTimestampOf (set env db ModeSetAccess addr).2 addr = some s ∧
        accessTimestampOf (set env db ModeSetAccess addr).2 addr = some t ∧
        entriesOf (set env db ModeSetAccess addr).2.pullIndex addr = {(s, addr)} ∧
        entriesOf (set env db ModeSetAccess addr).2.gcIndex addr = {(t, addr)} ∧
        (db.useRetrievalCompositeIndex = false ∧ t = env.now 0 ∨
          db.useRetrievalCompositeIndex = true ∧ accessTimestampOf db addr = some t) := by
  rcases hc : db.useRetrievalCompositeIndex with _ | _
  · obtain ⟨hl, hd, ha, hw⟩ := access_ok_split env db addr hc h
    rw [set_access_split env db addr hc hl hd ha hw]
    rcases h1 : db.retrievalDataIndex addr with _ | ⟨s, d⟩
    · simp [hasCanonical, hc, h1] at hcan
    · have hp : ∀ t, (t, addr) ∈ db.pullIndex → t = s := by
        intro t ht
        have := hpull t ht
        simp [storeTimestampOf, hc, h1] at this
        exact this.symm
      rcases h2 : db.retrievalAccessIndex addr with _ | a
      · have hg : ∀ t, (t, addr) ∈ db.gcIndex → t = env.now 0 := by
          intro t ht
          have := hgc t ht
          simp [accessTimestampOf, hc, h2] at this
        refine ⟨hc, by simp [hasCanonical, hc, h1], s, env.now 0, ?_, ?_, ?_, ?_, Or.inl ⟨rfl, rfl⟩⟩
        · simp [storeTimestampOf, hc, h1]
        · simp [accessTimestampOf, hc]
        · exact entriesOf_insert _ _ _ hp
        · exact entriesOf_insert _ _ _ hg
      · have hg : ∀ t, (t, addr) ∈ db.gcIndex.erase (a, addr) → t = env.now 0 := by
          intro t ht
          rw [Finset.mem_erase] at ht
          have := hgc t ht.2
          simp [accessTimestampOf, hc, h2] at this
          exact absurd (by rw [this]) ht.1
        refine ⟨hc, by simp [hasCanonical, hc, h1], s, env.now 0, ?_, ?_, ?_, ?_, Or.inl ⟨rfl, rfl⟩⟩
        · simp [storeTimestampOf, hc, h1]
        · simp [accessTimestampOf, hc]
        · exact entriesOf_insert _ _ _ hp
        · exact entriesOf_insert _ _ _ hg
  · obtain ⟨hl, hg1, hw⟩ := access_ok_composite env db addr hc h
    rw [set_access_composite env db addr hc hl hg1 hw]
    rcases h1 : db.retrievalCompositeIndex addr with _ | ⟨s, a, d⟩
    · simp [hasCanonical, hc, h1] at hcan
    · have hp : ∀ t, (t, addr) ∈ db.pullIndex → t = s := by
        intro t ht
        have := hpull t ht
        simp [storeTimestampOf, hc, h1] at this
        exact this.symm
      have hg : ∀ t, (t, addr) ∈ db.gcIndex.erase (a, addr) → t = a := by
        intro t ht
        rw [Finset.mem_erase] at ht
        have := hgc t ht.2
        simp [accessTimestampOf, hc, h1] at this
        exact this.symm
      refine ⟨hc, by simp [hasCanonical, hc, h1], s, a, ?_, ?_, ?_, ?_, Or.inr ⟨rfl, ?_⟩⟩
      · simp [storeTimestampOf, hc, h1]
      · simp [accessTimestampOf, hc, h1]
      · exact entriesOf_insert _ _ _ hp
      · exact entriesOf_insert _ _ _ hg
      · simp [accessTimestampOf, hc, h1]

/-- C2 (as amended). In both layouts, for every address that has a canonical
record, in every state whose Pull entries of the address are keyed by the
recorded store timestamp and whose GC entries of the address are keyed by the
recorded access timestamp, two successive calls of `set(ModeSetAccess, addr)`
that return nil, the clock not going backwards, leave exactly one GC entry and
exactly one Pull entry for the address, and the access timestamp recorded
after the second call is at least the one recorded after the first. -/
theorem C2_reaccess (env1 env2 : Env) (db : DB) (addr : Address)
    (hcan : hasCanonical db addr = true)
    (hpull : ∀ t, (t, addr) ∈ db.pullIndex → storeTimestampOf db addr = some t)
    (hgc : ∀ t, (t, addr) ∈ db.gcIndex → accessTimestampOf db addr = some t)
    (hclock : env1.now 0 ≤ env2.now 0)
    (h1 : (set env1 db ModeSetAccess addr).1 = none)
    (h2 : (set env2 (set env1 db ModeSetAccess addr).2 ModeSetAccess addr).1 = none) :
    (entriesOf (set env2 (set env1 db ModeSetAccess addr).2 ModeSetAccess addr).2.gcIndex
        addr).card = 1 ∧
      (entriesOf (set env2 (set env1 db ModeSetAccess addr).2 ModeSetAccess addr).2.pullIndex
        addr).card = 1 ∧
      ∃ t1 t2, accessTimestampOf (set env1 db ModeSetAccess addr).2 addr = some t1 ∧
        accessTimestampOf (set env2 (set env1 db ModeSetAccess addr).2 ModeSetAccess addr).2
          addr = some t2 ∧ t1 ≤ t2 := by
  obtain ⟨lay1, can1, s1, t1, hs1, ht1, hp1, hg1, hk1⟩ :=
    access_stored env1 db addr hcan hpull hgc h1
  generalize set env1 db ModeSetAccess addr = r1 at *
  have hpull1 : ∀ t, (t, addr) ∈ r1.2.pullIndex → storeTimestampOf r1.2 addr = some t := by
    intro t ht
    rw [mem_of_entriesOf_eq _ _ _ _ hp1 ht, hs1]
  have hgc1 : ∀ t, (t, addr) ∈ r1.2.gcIndex → accessTimestampOf r1.2 addr = some t := by
    intro t ht
    rw [mem_of_entriesOf_eq _ _ _ _ hg1 ht, ht1]
  obtain ⟨-, -, s2, t2, -, ht2, hp2, hg2, hk2⟩ :=
    access_stored env2 r1.2 addr can1 hpull1 hgc1 h2
  refine ⟨by rw [hg2]; rfl, by rw [hp2]; rfl, t1, t2, ht1, ht2, ?_⟩
  rcases hk2 with ⟨hf, rfl⟩ | ⟨hf, hsame⟩
  · rcases hk1 with ⟨-, rfl⟩ | ⟨ht, -⟩
    · exact hclock
    · rw [lay1, ht] at hf
      exact absurd hf (by decide)
  · rw [ht1] at hsame
    exact le_of_eq (Option.some.inj hsame)

theorem C2_reaccess_witness :
    (entriesOf (set (calm 300) (set (calm 200) (freshDB false) ModeSetAccess [1]).2
        ModeSetAccess [1]).2.gcIndex [1]).card = 1 ∧
      (entriesOf (set (calm 300) (set (calm 200) (freshDB false) ModeSetAccess [1]).2
        ModeSetAccess [1]).2.pullIndex [1]).card = 1 ∧
      ∃ t1 t2, accessTimestampOf (set (calm 200) (freshDB false) ModeSetAccess [1]).2 [1]
          = some t1 ∧
        accessTimestampOf (set (calm 300) (set (calm 200) (freshDB false) ModeSetAccess [1]).2
          ModeSetAccess [1]).2 [1] = some t2 ∧ t1 ≤ t2 :=
  C2_reaccess (calm 200) (calm 300) (freshDB false) [1] (by decide)
    (by intro t ht; simp [freshDB, emptyDB] at ht; subst ht; decide)
    (by intro t ht; simp [freshDB, emptyDB] at ht)
    (by decide) (by decide) (by decide)

/-- C2, counterexample. Split layout, empty database: the address `[1]` was
never stored, hence never synced. Two successive Access calls, at times 200 and
300, both return nil and leave two Pull entries for the address. -/
theorem C2_counterexample :
    (set (calm 200) (emptyDB false) ModeSetAccess [1]).1 = none ∧
      (set (calm 300) (set (calm 200) (emptyDB false) ModeSetAccess [1]).2
        ModeSetAccess [1]).1 = none ∧
      (entriesOf (set (calm 300) (set (calm 200) (emptyDB false) ModeSetAccess [1]).2
        ModeSetAccess [1]).2.pullIndex [1]).card = 2 := by
  decide

/-! ### Calls on one address leave the entries of the others alone -/

theorem sameEntries_refl (d : DB) (b : Address) : sameEntries d d b := by
  simp [sameEntries]

theorem sameEntries_symm (d1 d2 : DB) (b : Address) (h : sameEntries d1 d2 b) :
    sameEntries d2 d1 b := by
  obtain ⟨h1, h2, h3, h4, h5, h6⟩ := h
  exact ⟨h1.symm, h2.symm, h3.symm, fun t => (h4 t).symm, fun t => (h5 t).symm,
    fun t => (h6 t).symm⟩

theorem sameEntries_trans (d1 d2 d3 : DB) (b : Address) (h : sameEntries d1 d2 b)
    (h' : sameEntries d2 d3 b) : sameEntries d1 d3 b := by
  obtain ⟨h1, h2, h3, h4, h5, h6⟩ := h
  obtain ⟨k1, k2, k3, k4, k5, k6⟩ := h'
  exact ⟨h1.trans k1, h2.trans k2, h3.trans k3, fun t => (h4 t).trans (k4 t),
    fun t => (h5 t).trans (k5 t), fun t => (h6 t).trans (k6 t)⟩

theorem sameEntries_incGCSize (d : DB) (n : Int) (b : Address) :
    sameEntries (incGCSize d n) d b := by
  simp [sameEntries, incGCSize]

theorem applyOp_frame (d : DB) (op : Op) (b : Address) (h : op.item.Address ≠ b) :
    sameEntries (applyOp d op) d b := by
  have hb : b ≠ op.item.Address := fun e => h e.symm
  rcases op with ⟨idx, it⟩ | ⟨idx, it⟩ <;> cases idx <;>
    simp only [Op.item] at hb <;>
    simp [sameEntries, applyOp, Function.update_noteq hb, hb]

theorem applyOp_congr (d1 d2 : DB) (op : Op) (b : Address) (h : sameEntries d1 d2 b) :
    sameEntries (applyOp d1 op) (applyOp d2 op) b := by
  obtain ⟨h1, h2, h3, h4, h5, h6⟩ := h
  rcases op with ⟨idx, it⟩ | ⟨idx, it⟩ <;> cases idx <;>
    simp only [sameEntries, applyOp, Finset.mem_insert, Finset.mem_erase, h4, h5, h6] <;>
    refine ⟨?_, ?_, ?_, ?_, ?_, ?_⟩ <;>
    first
      | assumption
      | (by_cases hb : b = it.Address
         · subst hb; simp
         · simp [Function.update_noteq hb, h1, h2, h3])

theorem applyBatch_frame (batch : Batch) (d : DB) (b : Address)
    (h : ∀ op ∈ batch, op.item.Address ≠ b) : sameEntries (applyBatch d batch) d b := by
  induction batch generalizing d with
  | nil => exact sameEntries_refl d b
  | cons op ops ih =>
    have h1 := ih (applyOp d op) (fun o ho => h o (List.mem_cons_of_mem _ ho))
    have h2 := applyOp_frame d op b (h op (List.mem_cons_self _ _))
    exact sameEntries_trans _ _ _ b h1 h2

theorem applyBatch_congr (batch : Batch) (d1 d2 : DB) (b : Address)
    (h : sameEntries d1 d2 b) :
    sameEntries (applyBatch d1 batch) (applyBatch d2 batch) b := by
  induction batch generalizing d1 d2 with
  | nil => exact h
  | cons op ops ih => exact ih _ _ (applyOp_congr d1 d2 op b h)

theorem setFlow_batch_addr (env : Env) (db : DB) (mode : ModeSet) (addr : Address)
    (batch : Batch) (h : (setFlow env db mode addr).2 = .write batch) :
    ∀ op ∈ batch, op.item.Address = addr := by
  revert h
  unfold setFlow setAccess setSync setRemove setAccessSplit setRemoveSplit removeTail accessTail
    syncTail
  simp only []
  repeat' split
  all_goals
    intro h
    first
      | (simp at h; done)
      | (simp only [Flow.write.injEq] at h
         subst h
         simp [PutInBatch, DeleteInBatch, Op.item, addressToItem])

theorem set_snd (env : Env) (db : DB) (mode : ModeSet) (addr : Address) :
    (set env db mode addr).2 =
      match env.lockAddr with
      | some _ => db
      | none =>
        match (setFlow env db mode addr).2 with
        | .ret _ => (setFlow env db mode addr).1
        | .write batch =>
          match env.writeBatch with
          | some _ => (setFlow env db mode addr).1
          | none => applyBatch (setFlow env db mode addr).1 batch := by
  unfold set
  rcases hl : env.lockAddr with _ | c
  · rcases hf : setFlow env db mode addr with ⟨db1, e | batch⟩
    · simp
    · rcases hw : env.writeBatch with _ | c <;> simp [WriteBatch, hw]
  · simp

theorem set_frame (env : Env) (db : DB) (mode : ModeSet) (a b : Address) (hab : a ≠ b) :
    sameEntries (set env db mode a).2 db b := by
  obtain ⟨n, hn⟩ := setFlow_db env db mode a
  rw [set_snd]
  rcases hl : env.lockAddr with _ | c
  · rcases hf : (setFlow env db mode a).2 with e | batch
    · simp only [hn]
      exact sameEntries_incGCSize db n b
    · rcases hw : env.writeBatch with _ | c
      · simp only [hn]
        refine sameEntries_trans _ _ _ b (applyBatch_frame batch _ b ?_)
          (sameEntries_incGCSize db n b)
        intro op hop
        rw [setFlow_batch_addr env db mode a batch hf op hop]
        exact hab
      · simp only [hn]
        exact sameEntries_incGCSize db n b
  · exact sameEntries_refl db b

theorem applyBatch_layout (batch : Batch) (d : DB) :
    (applyBatch d batch).useRetrievalCompositeIndex = d.useRetrievalCompositeIndex := by
  induction batch generalizing d with
  | nil => rfl
  | cons op ops ih =>
    have h : (applyOp d op).useRetrievalCompositeIndex = d.useRetrievalCompositeIndex := by
      rcases op with ⟨idx, it⟩ | ⟨idx, it⟩ <;> cases idx <;> rfl
    exact (ih (applyOp d op)).trans h

theorem set_layout (env : Env) (db : DB) (mode : ModeSet) (addr : Address) :
    (set env db mode addr).2.useRetrievalCompositeIndex = db.useRetrievalCompositeIndex := by
  obtain ⟨n, hn⟩ := setFlow_db env db mode addr
  rw [set_snd]
  rcases hl : env.lockAddr with _ | c
  · rcases hf : (setFlow env db mode addr).2 with e | batch
    · simp only [hn]
      rfl
    · rcases hw : env.writeBatch with _ | c
      · simp only [hn, applyBatch_layout]
        rfl
      · simp only [hn]
        rfl
  · rfl

theorem removeTail_snd (env : Env) (db : DB) (batch : Batch) (item : Item) :
    (removeTail env db batch item).2 =
      .write (DeleteInBatch (DeleteInBatch
        (if db.useRetrievalCompositeIndex then DeleteInBatch batch .retrievalCompositeIndex item
          else DeleteInBatch (DeleteInBatch batch .retrievalDataIndex item)
            .retrievalAccessIndex item) .pullIndex item) .gcIndex item) := by
  unfold removeTail
  simp only []
  split <;> rfl

theorem setFlow_flow_congr (env : Env) (d1 d2 : DB) (mode : ModeSet) (addr : Address)
    (hlay : d1.useRetrievalCompositeIndex = d2.useRetrievalCompositeIndex)
    (h1 : d1.retrievalCompositeIndex addr = d2.retrievalCompositeIndex addr)
    (h2 : d1.retrievalDataIndex addr = d2.retrievalDataIndex addr)
    (h3 : d1.retrievalAccessIndex addr = d2.retrievalAccessIndex addr) :
    (setFlow env d1 mode addr).2 = (setFlow env d2 mode addr).2 := by
  by_cases m0 : mode = ModeSetAccess
  · exact (setFlow_congr env d1 d2 mode addr (Or.inl m0) hlay h1 h2 h3).1
  · by_cases m1 : mode = ModeSetSync
    · exact (setFlow_congr env d1 d2 mode addr (Or.inr m1) hlay h1 h2 h3).1
    · by_cases m2 : mode = ModeSetRemove
      · subst m2
        rcases hc : d2.useRetrievalCompositeIndex with _ | _ <;>
        rcases hg : env.getFailure .retrievalCompositeIndex with _ | c <;>
        rcases hd : env.getFailure .retrievalDataIndex with _ | c <;>
        rcases ha : env.getFailure .retrievalAccessIndex with _ | c <;>
        rcases r1 : d2.retrievalCompositeIndex addr with _ | ⟨s, a, d⟩ <;>
        rcases r2 : d2.retrievalDataIndex addr with _ | ⟨s, d⟩ <;>
        rcases r3 : d2.retrievalAccessIndex addr with _ | a <;>
          simp [setFlow, setRemove, setRemoveSplit, removeTail_snd, Get, stored, addressToItem,
            hlay, h1, h2, h3, hc, hg, hd, ha, r1, r2, r3, ModeSetRemove, ModeSetSync,
            ModeSetAccess]
      · simp [setFlow, m0, m1, m2]

theorem set_congr (env : Env) (d1 d2 : DB) (mode : ModeSet) (b : Address)
    (hlay : d1.useRetrievalCompositeIndex = d2.useRetrievalCompositeIndex)
    (h : sameEntries d1 d2 b) :
    sameEntries (set env d1 mode b).2 (set env d2 mode b).2 b := by
  obtain ⟨n1, hn1⟩ := setFlow_db env d1 mode b
  obtain ⟨n2, hn2⟩ := setFlow_db env d2 mode b
  have hflow := setFlow_flow_congr env d1 d2 mode b hlay h.1 h.2.1 h.2.2.1
  have hinc : sameEntries (incGCSize d1 n1) (incGCSize d2 n2) b :=
    sameEntries_trans _ _ _ b (sameEntries_incGCSize d1 n1 b)
      (sameEntries_trans _ _ _ b h (sameEntries_symm _ _ b (sameEntries_incGCSize d2 n2 b)))
  rw [set_snd, set_snd, hflow]
  rcases hl : env.lockAddr with _ | c
  · rcases hf : (setFlow env d2 mode b).2 with e | batch
    · simp only [hn1, hn2]
      exact hinc
    · rcases hw : env.writeBatch with _ | c
      · simp only [hn1, hn2]
        exact applyBatch_congr batch _ _ b hinc
      · simp only [hn1, hn2]
        exact hinc
  · exact h

theorem runAll_filter (calls : List Call) (d1 d2 : DB) (b : Address)
    (hlay : d1.useRetrievalCompositeIndex = d2.useRetrievalCompositeIndex)
    (h : sameEntries d1 d2 b) :
    sameEntries (runAll d1 calls) (runAll d2 (calls.filter (fun c => c.addr = b))) b := by
  induction calls generalizing d1 d2 with
  | nil => exact h
  | cons c cs ih =>
    by_cases hc : c.addr = b
    · have hf : (c :: cs).filter (fun c => c.addr = b) = c :: cs.filter (fun c => c.addr = b) := by
        simp [List.filter, hc]
      rw [hf]
      simp only [runAll, List.foldl_cons]
      refine ih _ _ ?_ ?_
      · rw [set_layout, set_layout, hlay]
      · rw [hc]
        exact set_congr c.env d1 d2 c.mode b hlay h
    · have hf : (c :: cs).filter (fun c => c.addr = b) = cs.filter (fun c => c.addr = b) := by
        simp [List.filter, hc]
      rw [hf]
      simp only [runAll, List.foldl_cons]
      refine ih _ _ ?_ ?_
      · rw [set_layout, hlay]
      · exact sameEntries_trans _ _ _ b (set_frame c.env d1 c.mode c.addr b hc) h

/-- C11. For every mode, layout, state and pair of distinct addresses `a` and
`b`, `set(mode, a)` leaves every index entry of `b` (composite, data, access,
Pull, Push, GC) unchanged, whatever it returns. Consequently the entries of `b`
after a sequence of calls depend only on the calls made on `b`: two sequences
of calls, of any modes and in any order, that contain the same calls on `b`
lead from the same state to the same entries of `b`. -/
theorem C11_no_interference (env : Env) (db : DB) (mode : ModeSet) (a b : Address)
    (calls1 calls2 : List Call) (hab : a ≠ b)
    (hown : calls1.filter (fun c => c.addr = b) = calls2.filter (fun c => c.addr = b)) :
    sameEntries (set env db mode a).2 db b ∧
      sameEntries (runAll db calls1) (runAll db calls2) b := by
  refine ⟨set_frame env db mode a b hab, ?_⟩
  have h1 := runAll_filter calls1 db db b rfl (sameEntries_refl db b)
  have h2 := runAll_filter calls2 db db b rfl (sameEntries_refl db b)
  rw [hown] at h1
  exact sameEntries_trans _ _ _ b h1 (sameEntries_symm _ _ b h2)

theorem C11_no_interference_witness :
    sameEntries (set (calm 200) (freshDB false) ModeSetAccess [2]).2 (freshDB false) [1] ∧
      sameEntries
        (runAll (freshDB false)
          [⟨calm 200, ModeSetAccess, [1]⟩, ⟨calm 300, ModeSetAccess, [2]⟩])
        (runAll (freshDB false)
          [⟨calm 300, ModeSetAccess, [2]⟩, ⟨calm 200, ModeSetAccess, [1]⟩]) [1] :=
  C11_no_interference (calm 200) (freshDB false) ModeSetAccess [2] [1]
    [⟨calm 200, ModeSetAccess, [1]⟩, ⟨calm 300, ModeSetAccess, [2]⟩]
    [⟨calm 300, ModeSetAccess, [2]⟩, ⟨calm 200, ModeSetAccess, [1]⟩] (by decide) rfl

/-! ### Sync of a stored chunk -/

theorem entriesOf_erase (S : Finset (Int × Address)) (addr : Address) (s : Int)
    (h : ∀ t, (t, addr) ∈ S → t = s) : entriesOf (S.erase (s, addr)) addr = ∅ := by
  ext ⟨t, x⟩
  simp only [entriesOf, Finset.mem_filter, Finset.mem_erase, Finset.not_mem_empty, iff_false]
  rintro ⟨⟨hne, hm⟩, hx⟩
  have hx' : x = addr := hx
  subst hx'
  exact hne (by rw [h t hm])

theorem card_insert_erase (S : Finset (Int × Address)) (x y : Int × Address) (hx : x ∈ S)
    (hy : y ∉ S.erase x) : (insert y (S.erase x)).card = S.card := by
  rw [Finset.card_insert_of_not_mem hy]
  exact Finset.card_erase_add_one hx

theorem sync_stored (env : Env) (db : DB) (addr : Address)
    (hcan : hasCanonical db addr = true) (htrack : gcTracks db addr)
    (hpush : ∀ t, (t, addr) ∈ db.pushIndex → storeTimestampOf db addr = some t)
    (hl : env.lockAddr = none) (hf : ∀ idx, env.getFailure idx = none)
    (hw : env.writeBatch = none) :
    (set env db ModeSetSync addr).1 = none ∧
      entriesOf (set env db ModeSetSync addr).2.pushIndex addr = ∅ ∧
      (entriesOf (set env db ModeSetSync addr).2.gcIndex addr).card = 1 ∧
      (set env db ModeSetSync addr).2.gcIndex.card =
        db.gcIndex.card + (if lastAccess db addr = none then 1 else 0) ∧
      (set env db ModeSetSync addr).2.gcSize =
        db.gcSize + (if lastAccess db addr = none then 1 else 0) := by
  rcases hc : db.useRetrievalCompositeIndex with _ | _
  · rcases h1 : db.retrievalDataIndex addr with _ | ⟨s, d⟩
    · simp [hasCanonical, hc, h1] at hcan
    · rw [set_sync_split env db addr s d hc hl (hf _) (hf _) hw h1]
      have hp : ∀ t, (t, addr) ∈ db.pushIndex → t = s := by
        intro t ht
        have := hpush t ht
        simp [storeTimestampOf, hc, h1] at this
        exact this.symm
      have hla : lastAccess db addr = db.retrievalAccessIndex addr := by
        simp [lastAccess, hc]
      rcases h2 : db.retrievalAccessIndex addr with _ | a
      · have hnone : ∀ t, (t, addr) ∉ db.gcIndex := by
          intro t ht
          have := (htrack t).1 ht
          rw [hla, h2] at this
          exact absurd this (by simp)
        refine ⟨rfl, entriesOf_erase _ _ _ hp, ?_, ?_, ?_⟩
        · simp only
          rw [entriesOf_insert _ _ _ (fun t ht => absurd ht (hnone t))]
          rfl
        · simp only [hla, h2, if_true]
          exact Finset.card_insert_of_not_mem (hnone _)
        · simp only [hla, h2, if_true]
      · have hmem : (a, addr) ∈ db.gcIndex := (htrack a).2 (by rw [hla, h2])
        have honly : ∀ t, (t, addr) ∈ db.gcIndex → t = a := by
          intro t ht
          have := (htrack t).1 ht
          rw [hla, h2] at this
          exact (Option.some.inj this).symm
        have hfresh : ∀ t, (t, addr) ∉ db.gcIndex.erase (a, addr) := by
          intro t ht
          rw [Finset.mem_erase] at ht
          exact ht.1 (by rw [honly t ht.2])
        refine ⟨rfl, entriesOf_erase _ _ _ hp, ?_, ?_, ?_⟩
        · simp only
          rw [entriesOf_insert _ _ _ (fun t ht => absurd ht (hfresh t))]
          rfl
        · simp only [hla, h2, reduceCtorEq, if_false, add_zero]
          exact card_insert_erase _ _ _ hmem (hfresh _)
        · simp only [hla, h2, reduceCtorEq, if_false, add_zero, neg_add_cancel_right]
  · rcases h1 : db.retrievalCompositeIndex addr with _ | ⟨s, a, d⟩
    · simp [hasCanonical, hc, h1] at hcan
    · rw [set_sync_composite env db addr s a d hc hl (hf _) hw h1]
      have hp : ∀ t, (t, addr) ∈ db.pushIndex → t = s := by
        intro t ht
        have := hpush t ht
        simp [storeTimestampOf, hc, h1] at this
        exact this.symm
      by_cases h0 : a = 0
      · have hla : lastAccess db addr = none := by
          simp [lastAccess, hc, h1, h0]
        have hnone : ∀ t, (t, addr) ∉ db.gcIndex := by
          intro t ht
          have := (htrack t).1 ht
          rw [hla] at this
          exact absurd this (by simp)
        simp only [h0, if_true, hla]
        refine ⟨trivial, entriesOf_erase _ _ _ hp, ?_, ?_, trivial⟩
        · rw [entriesOf_insert _ _ _ (fun t ht => absurd ht (hnone t))]
          rfl
        · exact Finset.card_insert_of_not_mem (hnone _)
      · have hla : lastAccess db addr = some a := by
          simp [lastAccess, hc, h1, h0]
        have hmem : (a, addr) ∈ db.gcIndex := (htrack a).2 hla
        have honly : ∀ t, (t, addr) ∈ db.gcIndex → t = a := by
          intro t ht
          have := (htrack t).1 ht
          rw [hla] at this
          exact (Option.some.inj this).symm
        simp only [h0, if_false, hla, reduceCtorEq, add_zero, neg_add_cancel_right]
        refine ⟨trivial, entriesOf_erase _ _ _ hp, ?_, ?_, trivial⟩
        · rw [Finset.insert_erase hmem, ← Finset.insert_erase hmem,
            entriesOf_insert _ _ _ (fun t ht => honly t (Finset.mem_of_mem_erase ht))]
          rfl
        · rw [Finset.insert_erase hmem]

/-- C15 (as amended). In both layouts, for every state that satisfies the
counter invariant, in which the GC entries of the address are exactly the one
keyed by its access timestamp (none if it was never accessed) and its Push
entries are keyed by its store timestamp, and for every address with a
canonical record: when the lock, the reads and the batch write do not fail,
`set(ModeSetSync, addr)` returns nil; afterwards the Push index has no entry
for the address, the GC index holds exactly one entry for it, the number of GC
entries and the counter have each grown by 1 if the chunk had no access
timestamp before and are unchanged otherwise, and the counter invariant holds
again. -/
theorem C15_sync_stored (env : Env) (db : DB) (addr : Address)
    (hinv : counterInv db) (hcan : hasCanonical db addr = true) (htrack : gcTracks db addr)
    (hpush : ∀ t, (t, addr) ∈ db.pushIndex → storeTimestampOf db addr = some t)
    (hl : env.lockAddr = none) (hf : ∀ idx, env.getFailure idx = none)
    (hw : env.writeBatch = none) :
    (set env db ModeSetSync addr).1 = none ∧
      entriesOf (set env db ModeSetSync addr).2.pushIndex addr = ∅ ∧
      (entriesOf (set env db ModeSetSync addr).2.gcIndex addr).card = 1 ∧
      (set env db ModeSetSync addr).2.gcIndex.card =
        db.gcIndex.card + (if lastAccess db addr = none then 1 else 0) ∧
      (set env db ModeSetSync addr).2.gcSize =
        db.gcSize + (if lastAccess db addr = none then 1 else 0) ∧
      counterInv (set env db ModeSetSync addr).2 := by
  obtain ⟨h1, h2, h3, h4, h5⟩ := sync_stored env db addr hcan htrack hpush hl hf hw
  refine ⟨h1, h2, h3, h4, h5, ?_⟩
  unfold counterInv at hinv ⊢
  rw [h5, h4, hinv]
  split <;> simp

theorem C15_sync_stored_witness :
    (set (calm 300) (freshDB false) ModeSetSync [1]).1 = none ∧
      entriesOf (set (calm 300) (freshDB false) ModeSetSync [1]).2.pushIndex [1] = ∅ ∧
      (entriesOf (set (calm 300) (freshDB false) ModeSetSync [1]).2.gcIndex [1]).card = 1 ∧
      (set (calm 300) (freshDB false) ModeSetSync [1]).2.gcIndex.card =
        (freshDB false).gcIndex.card + (if lastAccess (freshDB false) [1] = none then 1 else 0) ∧
      (set (calm 300) (freshDB false) ModeSetSync [1]).2.gcSize =
        (freshDB false).gcSize + (if lastAccess (freshDB false) [1] = none then 1 else 0) ∧
      counterInv (set (calm 300) (freshDB false) ModeSetSync [1]).2 :=
  C15_sync_stored (calm 300) (freshDB false) [1] (by simp [counterInv, freshDB, emptyDB])
    (by decide) (by intro t; simp [lastAccess, freshDB, emptyDB])
    (by intro t ht; simp [freshDB, emptyDB] at ht; subst ht; decide) rfl (fun _ => rfl) rfl

/-- C15, counterexample. Split layout: the stored chunk `[1]` has the access
record 5 but no GC entry, and the counter invariant holds (counter 0, no GC
entry). `set(ModeSetSync, [1])` returns nil; the chunk had an access timestamp,
yet the number of GC entries has grown from 0 to 1 while the counter is still
0. -/
theorem C15_counterexample :
    counterInv uncoupledStoredDB ∧ hasCanonical uncoupledStoredDB [1] = true ∧
      uncoupledStoredDB.retrievalAccessIndex [1] = some 5 ∧
      (set (calm 300) uncoupledStoredDB ModeSetSync [1]).1 = none ∧
      uncoupledStoredDB.gcIndex.card = 0 ∧
      (set (calm 300) uncoupledStoredDB ModeSetSync [1]).2.gcIndex.card = 1 ∧
      (set (calm 300) uncoupledStoredDB ModeSetSync [1]).2.gcSize = 0 := by
  unfold counterInv
  decide

/-- C16 (as amended). For every state in which the address has a canonical
record and an already recorded non-zero access timestamp `a`, after a
successful `set(ModeSetSync, addr)`: in the composite layout the GC entry of
the address is keyed by the carried-over timestamp `a`, the recorded access
timestamp is still `a` and no GC entry keyed by the clock is added; in the
split layout the GC entry is keyed by the current clock value, which is also
written to the access index, and the entry keyed by `a` is gone unless `a` is
the clock value. -/
theorem C16_sync_timestamp (env : Env) (db : DB) (addr : Address) (a : Int)
    (hcan : hasCanonical db addr = true) (ha : accessTimestampOf db addr = some a)
    (h0 : a ≠ 0) (h : (set env db ModeSetSync addr).1 = none) :
    (db.useRetrievalCompositeIndex = true →
        (a, addr) ∈ (set env db ModeSetSync addr).2.gcIndex ∧
        accessTimestampOf (set env db ModeSetSync addr).2 addr = some a ∧
        ∀ t, (t, addr) ∈ (set env db ModeSetSync addr).2.gcIndex →
          (t, addr) ∈ db.gcIndex ∨ t = a) ∧
      (db.useRetrievalCompositeIndex = false →
        (env.now 0, addr) ∈ (set env db ModeSetSync addr).2.gcIndex ∧
        accessTimestampOf (set env db ModeSetSync addr).2 addr = some (env.now 0) ∧
        (a ≠ env.now 0 → (a, addr) ∉ (set env db ModeSetSync addr).2.gcIndex)) := by
  constructor
  · intro hc
    obtain ⟨hl, hg, hrest⟩ := sync_ok_composite env db addr hc h
    rcases h1 : db.retrievalCompositeIndex addr with _ | ⟨s, a', d⟩
    · simp [hasCanonical, hc, h1] at hcan
    · have haa : a' = a := by
        simpa [accessTimestampOf, hc, h1] using ha
      subst haa
      rw [set_sync_composite env db addr s a' d hc hl hg (hrest (by simp [h1])) h1]
      simp only [h0, if_false]
      refine ⟨Finset.mem_insert_self _ _, by simp [accessTimestampOf, hc, h1], ?_⟩
      intro t ht
      rcases Finset.mem_insert.1 ht with h' | h'
      · exact Or.inr (Prod.mk.inj h').1
      · exact Or.inl (Finset.mem_of_mem_erase h')
  · intro hc
    obtain ⟨hl, hd, hrest⟩ := sync_ok_split env db addr hc h
    rcases h1 : db.retrievalDataIndex addr with _ | ⟨s, d⟩
    · simp [hasCanonical, hc, h1] at hcan
    · obtain ⟨hacc, hw⟩ := hrest (by simp [h1])
      have h2 : db.retrievalAccessIndex addr = some a := by
        simpa [accessTimestampOf, hc] using ha
      rw [set_sync_split env db addr s d hc hl hd hacc hw h1]
      refine ⟨Finset.mem_insert_self _ _, by simp [accessTimestampOf, hc], ?_⟩
      intro hne hmem
      simp only [h2] at hmem
      rcases Finset.mem_insert.1 hmem with h' | h'
      · exact hne (Prod.mk.inj h').1
      · exact (Finset.mem_erase.1 h').1 rfl

theorem C16_sync_timestamp_witness :
    (accessedDB.useRetrievalCompositeIndex = true →
        (7, [1]) ∈ (set (calm 300) accessedDB ModeSetSync [1]).2.gcIndex ∧
        accessTimestampOf (set (calm 300) accessedDB ModeSetSync [1]).2 [1] = some 7 ∧
        ∀ t, (t, [1]) ∈ (set (calm 300) accessedDB ModeSetSync [1]).2.gcIndex →
          (t, [1]) ∈ accessedDB.gcIndex ∨ t = 7) ∧
      (accessedDB.useRetrievalCompositeIndex = false →
        ((calm 300).now 0, [1]) ∈ (set (calm 300) accessedDB ModeSetSync [1]).2.gcIndex ∧
        accessTimestampOf (set (calm 300) accessedDB ModeSetSync [1]).2 [1]
          = some ((calm 300).now 0) ∧
        ((7 : Int) ≠ (calm 300).now 0 →
          (7, [1]) ∉ (set (calm 300) accessedDB ModeSetSync [1]).2.gcIndex)) :=
  C16_sync_timestamp (calm 300) accessedDB [1] 7 (by decide) (by decide) (by decide) (by decide)

/-- C16, counterexample. Split layout: the stored chunk `[1]` was accessed at
time 200, so its recorded access timestamp is 200 and its GC entry is
`(200, [1])`. A Sync at clock value 300 returns nil; afterwards the GC entry of
the chunk is `(300, [1])`, keyed by the clock value, and the entry keyed by the
carried-over timestamp 200 is gone. -/
theorem C16_counterexample :
    hasCanonical (afterAccess false).2 [1] = true ∧
      accessTimestampOf (afterAccess false).2 [1] = some 200 ∧
      (200, [1]) ∈ (afterAccess false).2.gcIndex ∧
      (set (calm 300) (afterAccess false).2 ModeSetSync [1]).1 = none ∧
      (200, [1]) ∉ (set (calm 300) (afterAccess false).2 ModeSetSync [1]).2.gcIndex ∧
      (set (calm 300) (afterAccess false).2 ModeSetSync [1]).2.gcIndex = {(300, [1])} := by
  decide

/-- C17. The first Access of an address without canonical record that still has
a Push entry, evaluated in both layouts: the call returns nil, the Pull and GC
indexes hold exactly the new entry stamped with the clock value 500, but the
Push entry `(100, [1])` of the address is still there. -/
theorem C17_access_unknown_push :
    (hasCanonical (removedDB false) [1] = false ∧
        (100, [1]) ∈ (removedDB false).pushIndex ∧
        (set (calm 500) (removedDB false) ModeSetAccess [1]).1 = none ∧
        (100, [1]) ∈ (set (calm 500) (removedDB false) ModeSetAccess [1]).2.pushIndex ∧
        (set (calm 500) (removedDB false) ModeSetAccess [1]).2.pullIndex = {(500, [1])} ∧
        (set (calm 500) (removedDB false) ModeSetAccess [1]).2.gcIndex = {(500, [1])}) ∧
      (hasCanonical (removedDB true) [1] = false ∧
        (100, [1]) ∈ (removedDB true).pushIndex ∧
        (set (calm 500) (removedDB true) ModeSetAccess [1]).1 = none ∧
        (100, [1]) ∈ (set (calm 500) (removedDB true) ModeSetAccess [1]).2.pushIndex ∧
        (set (calm 500) (removedDB true) ModeSetAccess [1]).2.pullIndex = {(500, [1])} ∧
        (set (calm 500) (removedDB true) ModeSetAccess [1]).2.gcIndex = {(500, [1])}) := by
  decide

/-- C18 (as amended). In both layouts, for every state and address on which
`set(ModeSetRemove, addr)` returns nil: the counter is decremented by exactly 1
if the probe of the GC index does not fail and the GC index of the state before
the call contains the entry keyed by the access timestamp of the chunk (0 when
the split layout has no access record) and the address, and is unchanged
otherwise, in particular when the probe fails; the probe sees the entry of the
state before the call although the call deletes it. -/
theorem C18_remove_counter (env : Env) (db : DB) (addr : Address)
    (h : (set env db ModeSetRemove addr).1 = none) :
    (set env db ModeSetRemove addr).2.gcSize =
        (if env.getFailure .gcIndex = none ∧
            ((accessTimestampOf db addr).getD 0, addr) ∈ db.gcIndex then db.gcSize - 1
          else db.gcSize) ∧
      ((accessTimestampOf db addr).getD 0, addr) ∉ (set env db ModeSetRemove addr).2.gcIndex := by
  rcases hc : db.useRetrievalCompositeIndex with _ | _
  · obtain ⟨hl, hd, ha, hw, s, d, hr⟩ := remove_ok_split env db addr hc h
    rw [set_remove_split env db addr s d hc hl hd ha hw hr]
    have hat : accessTimestampOf db addr = db.retrievalAccessIndex addr := by
      simp [accessTimestampOf, hc]
    simp only [hat]
    refine ⟨?_, Finset.not_mem_erase _ _⟩
    split <;> simp [sub_eq_add_neg]
  · obtain ⟨hl, hg, hw, s, a, d, hr⟩ := remove_ok_composite env db addr hc h
    rw [set_remove_composite env db addr s a d hc hl hg hw hr]
    have hat : accessTimestampOf db addr = some a := by
      simp [accessTimestampOf, hc, hr]
    simp only [hat, Option.getD_some]
    refine ⟨?_, Finset.not_mem_erase _ _⟩
    split <;> simp [sub_eq_add_neg]

theorem C18_remove_counter_witness :
    (set (calm 400) (afterAccess false).2 ModeSetRemove [1]).2.gcSize =
        (if (calm 400).getFailure .gcIndex = none ∧
            ((accessTimestampOf (afterAccess false).2 [1]).getD 0, [1]) ∈
              (afterAccess false).2.gcIndex then (afterAccess false).2.gcSize - 1
          else (afterAccess false).2.gcSize) ∧
      ((accessTimestampOf (afterAccess false).2 [1]).getD 0, [1]) ∉
        (set (calm 400) (afterAccess false).2 ModeSetRemove [1]).2.gcIndex :=
  C18_remove_counter (calm 400) (afterAccess false).2 [1] (by decide)

/-- C18, counterexample. Split layout: the stored chunk `[1]` was accessed at
time 200, so the GC index holds `(200, [1])` and the counter is 1. A Remove
whose probe of the GC index fails with a storage error returns nil; the GC
entry was in the index before the call and is deleted, yet the counter is still
1. -/
theorem C18_counterexample :
    (200, [1]) ∈ (afterAccess false).2.gcIndex ∧
      accessTimestampOf (afterAccess false).2 [1] = some 200 ∧
      (afterAccess false).2.gcSize = 1 ∧
      (set probeFails (afterAccess false).2 ModeSetRemove [1]).1 = none ∧
      (200, [1]) ∉ (set probeFails (afterAccess false).2 ModeSetRemove [1]).2.gcIndex ∧
      (set probeFails (afterAccess false).2 ModeSetRemove [1]).2.gcSize = 1 := by
  decide

/-- C19. In both layouts, for every state and address that has a canonical
record with payload `d` and store timestamp `s`, after a successful
`set(ModeSetAccess, addr)` or `set(ModeSetSync, addr)` the canonical record
still exists with payload `d` and store timestamp `s`, and every Pull entry of
the address that the call has written is keyed by `s`. -/
theorem C19_chunk_preserved (env : Env) (db : DB) (mode : ModeSet) (addr : Address)
    (s : Int) (d : List Nat)
    (hm : mode = ModeSetAccess ∨ mode = ModeSetSync)
    (hs : storeTimestampOf db addr = some s) (hd : payloadOf db addr = some d)
    (h : (set env db mode addr).1 = none) :
    hasCanonical (set env db mode addr).2 addr = true ∧
      storeTimestampOf (set env db mode addr).2 addr = some s ∧
      payloadOf (set env db mode addr).2 addr = some d ∧
      ∀ t, (t, addr) ∈ (set env db mode addr).2.pullIndex →
        (t, addr) ∈ db.pullIndex ∨ t = s := by
  rcases hc : db.useRetrievalCompositeIndex with _ | _
  · rcases h1 : db.retrievalDataIndex addr with _ | ⟨s', d'⟩
    · simp [storeTimestampOf, hc, h1] at hs
    · have e1 : s' = s := by simpa [storeTimestampOf, hc, h1] using hs
      have e2 : d' = d := by simpa [payloadOf, hc, h1] using hd
      subst e1 e2
      rcases hm with rfl | rfl
      · obtain ⟨hl, hd1, ha, hw⟩ := access_ok_split env db addr hc h
        rw [set_access_split env db addr hc hl hd1 ha hw]
        rcases h2 : db.retrievalAccessIndex addr with _ | a <;>
          simp [h1, hasCanonical, storeTimestampOf, payloadOf, hc] <;>
          intro t ht <;> exact Or.inl ht
      · obtain ⟨hl, hd1, hrest⟩ := sync_ok_split env db addr hc h
        obtain ⟨ha, hw⟩ := hrest (by simp [h1])
        rw [set_sync_split env db addr s' d' hc hl hd1 ha hw h1]
        simp [h1, hasCanonical, storeTimestampOf, payloadOf, hc]
        intro t ht
        exact Or.inl ht
  · rcases h1 : db.retrievalCompositeIndex addr with _ | ⟨s', a, d'⟩
    · simp [storeTimestampOf, hc, h1] at hs
    · have e1 : s' = s := by simpa [storeTimestampOf, hc, h1] using hs
      have e2 : d' = d := by simpa [payloadOf, hc, h1] using hd
      subst e1 e2
      rcases hm with rfl | rfl
      · obtain ⟨hl, hg, hw⟩ := access_ok_composite env db addr hc h
        rw [set_access_composite env db addr hc hl hg hw]
        simp [h1, hasCanonical, storeTimestampOf, payloadOf, hc]
        intro t ht
        exact Or.inl ht
      · obtain ⟨hl, hg, hrest⟩ := sync_ok_composite env db addr hc h
        rw [set_sync_composite env db addr s' a d' hc hl hg (hrest (by simp [h1])) h1]
        by_cases h0 : a = 0 <;>
          simp [h0, h1, hasCanonical, storeTimestampOf, payloadOf, hc] <;>
          intro t ht <;> exact Or.inl ht

theorem C19_chunk_preserved_witness :
    hasCanonical (set (calm 300) (freshDB true) ModeSetSync [1]).2 [1] = true ∧
      storeTimestampOf (set (calm 300) (freshDB true) ModeSetSync [1]).2 [1] = some 100 ∧
      payloadOf (set (calm 300) (freshDB true) ModeSetSync [1]).2 [1] = some [7] ∧
      ∀ t, (t, [1]) ∈ (set (calm 300) (freshDB true) ModeSetSync [1]).2.pullIndex →
        (t, [1]) ∈ (freshDB true).pullIndex ∨ t = 100 :=
  C19_chunk_preserved (calm 300) (freshDB true) ModeSetSync [1] 100 [7] (Or.inr rfl)
    (by decide) (by decide) (by decide)

/-! ### The coupling of the split layout is kept on its own -/

theorem split_step_coupled (env : Env) (db : DB) (mode : ModeSet) (addr : Address)
    (hc : db.useRetrievalCompositeIndex = false) (hcoup : coupled db)
    (h : (set env db mode addr).1 = none) : coupled (set env db mode addr).2 := by
  by_cases h0 : mode = ModeSetAccess
  · subst h0
    obtain ⟨hl, hd, ha, hw⟩ := access_ok_split env db addr hc h
    rw [set_access_split env db addr hc hl hd ha hw]
    rcases h1 : db.retrievalDataIndex addr with _ | ⟨s, d⟩ <;>
    rcases h2 : db.retrievalAccessIndex addr with _ | a
    · have R := restamp_inv db.gcIndex db.retrievalAccessIndex _ addr (env.now 1) hcoup rfl
      rw [h2] at R
      exact R.1
    · have R := restamp_inv db.gcIndex db.retrievalAccessIndex _ addr (env.now 1) hcoup rfl
      rw [h2] at R
      exact R.1
    · have R := restamp_inv db.gcIndex db.retrievalAccessIndex _ addr (env.now 0) hcoup rfl
      rw [h2] at R
      exact R.1
    · have R := restamp_inv db.gcIndex db.retrievalAccessIndex _ addr (env.now 0) hcoup rfl
      rw [h2] at R
      exact R.1
  · by_cases h1 : mode = ModeSetSync
    · subst h1
      obtain ⟨hl, hd, hrest⟩ := sync_ok_split env db addr hc h
      rcases hr : db.retrievalDataIndex addr with _ | ⟨s, d⟩
      · rw [set_sync_split_notFound env db addr hc hl hd hr]
        exact hcoup
      · obtain ⟨ha, hw⟩ := hrest (by simp [hr])
        rw [set_sync_split env db addr s d hc hl hd ha hw hr]
        exact (restamp_inv db.gcIndex db.retrievalAccessIndex _ addr (env.now 0) hcoup rfl).1
    · by_cases h2 : mode = ModeSetRemove
      · subst h2
        obtain ⟨hl, hd, ha, hw, s, d, hr⟩ := remove_ok_split env db addr hc h
        rw [set_remove_split env db addr s d hc hl hd ha hw hr]
        exact (unstamp_inv db.gcIndex db.retrievalAccessIndex _ addr hcoup rfl).1
      · exfalso
        revert h
        rcases hl : env.lockAddr with _ | c <;> simp [set, setFlow, hl, h0, h1, h2]

/-- C20 (as amended). Split layout: the predicate "for every address, the
access index holds the timestamp `a` for the address if and only if the GC
index holds the entry `(a, addr)`", under which the GC index holds at most one
entry per address, is preserved by every `set(mode, addr)` that returns nil;
together with the counter invariant it is preserved by every such call whose
probe of the GC index, made by Remove, does not fail. -/
theorem C20_coupling_invariant (env : Env) (db : DB) (mode : ModeSet) (addr : Address)
    (hc : db.useRetrievalCompositeIndex = false) (hcoup : coupled db)
    (h : (set env db mode addr).1 = none) :
    coupled (set env db mode addr).2 ∧
      (∀ x a b, (a, x) ∈ (set env db mode addr).2.gcIndex →
        (b, x) ∈ (set env db mode addr).2.gcIndex → a = b) ∧
      (set env db mode addr).2.useRetrievalCompositeIndex = false ∧
      (counterInv db → (mode = ModeSetRemove → env.getFailure .gcIndex = none) →
        counterInv (set env db mode addr).2) := by
  have hk := split_step_coupled env db mode addr hc hcoup h
  refine ⟨hk, ?_, ?_, ?_⟩
  · intro x a b ha hb
    have h1 := (hk x a).1 ha
    have h2 := (hk x b).1 hb
    rw [h1] at h2
    exact Option.some.inj h2
  · rw [set_layout, hc]
  · intro hn hp
    exact (split_step env db mode addr hc hcoup hn hp h).2.2

theorem C20_coupling_invariant_witness :
    coupled (set (calm 200) (freshDB false) ModeSetAccess [1]).2 ∧
      (∀ x a b, (a, x) ∈ (set (calm 200) (freshDB false) ModeSetAccess [1]).2.gcIndex →
        (b, x) ∈ (set (calm 200) (freshDB false) ModeSetAccess [1]).2.gcIndex → a = b) ∧
      (set (calm 200) (freshDB false) ModeSetAccess [1]).2.useRetrievalCompositeIndex = false ∧
      (counterInv (freshDB false) →
        (ModeSetAccess = ModeSetRemove → (calm 200).getFailure .gcIndex = none) →
        counterInv (set (calm 200) (freshDB false) ModeSetAccess [1]).2) :=
  C20_coupling_invariant (calm 200) (freshDB false) ModeSetAccess [1] rfl
    (by intro addr a; simp [freshDB, emptyDB]) (by decide)

/-- C20, counterexample. Split layout: after the Access of the stored chunk
`[1]` at time 200 the coupling and the counter invariant both hold. A Remove
whose probe of the GC index fails with a storage error returns nil and deletes
the GC entry without decrementing the counter: the counter invariant no longer
holds, so the two together are not preserved by every successful call. -/
theorem C20_counterexample :
    (afterAccess false).2.useRetrievalCompositeIndex = false ∧
      coupled (afterAccess false).2 ∧ counterInv (afterAccess false).2 ∧
      (set probeFails (afterAccess false).2 ModeSetRemove [1]).1 = none ∧
      ¬ counterInv (set probeFails (afterAccess false).2 ModeSetRemove [1]).2 := by
  refine ⟨by decide, ?_, by unfold counterInv; decide, by decide, by unfold counterInv; decide⟩
  exact split_step_coupled (calm 200) (freshDB false) ModeSetAccess [1] rfl
    (by intro addr a; simp [freshDB, emptyDB]) (by decide)

end Localstore

namespace Retrieval

/-- C12. Request validation: `checkRequest(ruid, addr)` returns nil when `ruid`
is 0, whatever the map holds; otherwise `ErrCannotFindRUID` when `ruid` has no
recorded address; otherwise `ErrNoAddressMatch` when the recorded address
differs from `addr`; otherwise nil. After `addRetrieval(ruid, a)` with a
non-zero `ruid`, `checkRequest(ruid, addr)` returns nil exactly when `addr`
equals `a`, and the two errors are distinct. -/
theorem C12_checkRequest (p : Peer) (ruid : Nat) (addr a v : List Nat) :
    checkRequest p 0 addr = none ∧
      (ruid ≠ 0 → p.retrievals ruid = none →
        checkRequest p ruid addr = some .ErrCannotFindRUID) ∧
      (ruid ≠ 0 → p.retrievals ruid = some v → v ≠ addr →
        checkRequest p ruid addr = some .ErrNoAddressMatch) ∧
      (ruid ≠ 0 → p.retrievals ruid = some addr → checkRequest p ruid addr = none) ∧
      (ruid ≠ 0 → (checkRequest (addRetrieval p ruid a) ruid addr = none ↔ addr = a)) ∧
      Error.ErrCannotFindRUID ≠ Error.ErrNoAddressMatch := by
  refine ⟨by simp [checkRequest], ?_, ?_, ?_, ?_, by decide⟩
  · intro h0 h
    simp [checkRequest, h0, h]
  · intro h0 h hv
    simp [checkRequest, h0, h, hv]
  · intro h0 h
    simp [checkRequest, h0, h]
  · intro h0
    simp only [checkRequest, h0, if_false, addRetrieval, Function.update_same]
    by_cases hv : a = addr
    · simp [hv]
    · simp [hv, Ne.symm hv]

theorem C12_checkRequest_witness :
    checkRequest NewPeer 0 [1] = none ∧
      ((7 : Nat) ≠ 0 → NewPeer.retrievals 7 = none →
        checkRequest NewPeer 7 [1] = some .ErrCannotFindRUID) ∧
      ((7 : Nat) ≠ 0 → NewPeer.retrievals 7 = some [3] → [3] ≠ [1] →
        checkRequest NewPeer 7 [1] = some .ErrNoAddressMatch) ∧
      ((7 : Nat) ≠ 0 → NewPeer.retrievals 7 = some [1] → checkRequest NewPeer 7 [1] = none) ∧
      ((7 : Nat) ≠ 0 → (checkRequest (addRetrieval NewPeer 7 [2]) 7 [1] = none ↔ [1] = [2])) ∧
      Error.ErrCannotFindRUID ≠ Error.ErrNoAddressMatch :=
  C12_checkRequest NewPeer 7 [1] [2] [3]

end Retrieval
